import Mathlib

/-!
Verification of the query-routing layer in `src/shared/src/ledger/queries/router.rs`.

The Rust code defines, via the `router!` / `try_match!` / `try_match_segments!` /
`handle_match!` macros, a path matcher that walks a request path with two byte
cursors `start` and `end`, trying each registered route in declaration order,
plus generated per-handler path-construction functions.

The shallow embedding below represents a request path as a `List Char` with
`Nat` cursors (the paths in question are ASCII, so byte offsets coincide with
character offsets).  The macro-generated control flow is represented
explicitly:

* `Res.next` models `break` out of the candidate-route `loop` (try the next
  candidate pattern, if any);
* `Res.ret r` models `return r` out of `internal_handle`;
* `Res.diverge` models the control path where the generated loop body falls
  through without `break` or `return`: the enclosing `loop` then repeats with
  state rebound from the same immutable outer variables, i.e. the program
  loops forever.  This happens when a route's sub-pattern block is entered and
  every sub-pattern breaks;
* `Res.underflow` models the debug-mode panic of `$start -= 1` on `usize`
  when `start` is `0` (the sub-router rewind).

Typed arguments are parametrised by a parser `List Char → Option α`, mirroring
`str::parse::<$arg_ty>` (the concrete argument types such as `token::Amount`
live outside this crate; their parser/printer pair is modelled from the spec
as decimal numerals, see `parse_nat` / `print_nat`).
-/

set_option maxHeartbeats 1000000
set_option linter.unreachableTactic false
set_option linter.unusedTactic false
set_option linter.unusedVariables false

namespace QueryRouter

/-- Mirrors `str::find(char)` on the character list: index of the first
occurrence, if any. -/
def strFind : List Char → Char → Option Nat
  | [], _ => none
  | c :: cs, t => if c = t then some 0 else (strFind cs t).map (· + 1)

/-- Embeds `find_next_slash_index` (router.rs lines 24-31):
`path[start..].find('/').map(|i| start + i).unwrap_or(path.len())`. -/
def find_next_slash_index (path : List Char) (start : Nat) : Nat :=
  match strFind (path.drop start) '/' with
  | some i => start + i
  | none => path.length

/-- Embeds the byte slice `path[s..e]`. -/
def slice (p : List Char) (s e : Nat) : List Char := (p.take e).drop s

/-- Embeds the repeated cursor-advance snippet
`start = end` followed by a guarded `start += 1` in
`try_match_segments!`. -/
def advance_start (p : List Char) (e : Nat) : Nat :=
  if e + 1 < p.length then e + 1 else e

/-- One element of a route pattern: a string literal, an untyped argument
`[arg]`, a required typed argument `[arg: ty]` or an optional typed argument
`[arg: opt ty]`.  A typed argument carries its parser capability
(`str::parse::<ty>`). -/
inductive Segment (α : Type) where
  | lit (s : List Char)
  | untyped
  | typed (parse : List Char → Option α)
  | optTyped (parse : List Char → Option α)

/-- A value bound for one pattern argument during matching. -/
inductive Arg (α : Type) where
  | str (s : List Char)
  | val (v : α)
  | opt (o : Option α)
  deriving DecidableEq

/-- The router error enumeration of router.rs (lines 13-16): the only variant
is `WrongPath` carrying the request path. -/
inductive RouterError where
  | wrongPath (path : List Char)
  deriving DecidableEq

mutual
/-- What a pattern is bound to: a leaf handler function (identified by a
numeric id; the handlers in the embedding succeed and report which handler ran
with which bound arguments), a brace-delimited sub-pattern block, or a
nested sub-router `(sub ROUTER)`. -/
inductive Handle (α : Type) where
  | leaf (id : Nat)
  | block (subs : Routes α)
  | sub (routes : Routes α)

/-- The ordered route table of a router: a list of (pattern, handle) pairs. -/
inductive Routes (α : Type) where
  | nil
  | cons (pattern : List (Segment α)) (h : Handle α) (tl : Routes α)
end

/-- A successful match: the handler id together with the bound arguments in
declaration order. -/
abbrev Answer (α : Type) := Nat × List (Arg α)

/-- Outcome of one candidate-pattern attempt (the body of one generated
`loop`). -/
inductive Res (α : Type) where
  | next
  | ret (r : Except RouterError (Answer α))
  | diverge
  | underflow

/-- Outcome of `internal_handle`. -/
inductive MOut (α : Type) where
  | result (r : Except RouterError (Answer α))
  | diverge
  | underflow

variable {α : Type}

theorem routes_sizeOf_pos (r : Routes α) : 0 < sizeOf r := by
  cases r <;> simp

mutual

/-- Embeds the body of `internal_handle` generated by `router!`
(router.rs lines 596-628): try each route in declaration order; a route's
`break` moves to the next route; falling off the end returns
`Err(WrongPath(request.path))`. -/
def internal_handle (routes : Routes α) (p : List Char) (s0 : Nat) : MOut α :=
  match routes with
  | .nil => .result (.error (.wrongPath p))
  | .cons pat h tl =>
    match try_match pat h p s0 with
    | .next => internal_handle tl p s0
    | .ret r => .result r
    | .diverge => .diverge
    | .underflow => .underflow
termination_by sizeOf routes
decreasing_by
  all_goals simp_wf
  all_goals first
  | omega
  | (have hpos := routes_sizeOf_pos tl; omega)

/-- Embeds `try_match!` (router.rs lines 269-294): require a non-empty path
whose first byte is `/`, advance `start` past it, require at least one more
byte, compute `end`, then run the segment muncher. -/
def try_match (pat : List (Segment α)) (h : Handle α) (p : List Char) (s0 : Nat) : Res α :=
  if p = [] ∨ p.take 1 ≠ ['/'] then .next
  else if p.length ≤ s0 + 1 then .next
  else try_match_segments pat h [] p (s0 + 1) (find_next_slash_index p (s0 + 1))
termination_by sizeOf pat + sizeOf h + 1
decreasing_by all_goals simp_wf <;> omega

/-- Embeds `try_match_segments!` together with `handle_match!`
(router.rs lines 35-73 and 78-263), one macro rule per case, in the macro's
rule order:
* an empty tail with a block handle tries each sub-pattern (rule at line 81);
* an empty tail otherwise invokes `handle_match!` (line 107): for `(sub r)` it
  rewinds `start` by one byte — a `usize` subtraction that would panic in
  debug mode if `start = 0`, modelled by `.underflow` — and returns whatever
  the sub-router's `internal_handle` returns; for a leaf handler it checks the
  end-of-path condition (`end == len`, or `end == len - 1` with the remaining
  byte a `/`) and, when it holds, invokes the handler;
* `[arg]` (line 115) binds the raw slice and always advances;
* `[arg: opt ty]` (line 139) binds `Some`/`None` and advances only on parse
  success;
* `[arg: ty]` as the final element with a leaf handler (line 179) is the
  catch-all case: `end` is first set to `path.len()`;
* `[arg: ty]` otherwise (line 207) parses the current slice, breaking on
  failure;
* a literal (line 238) compares the current slice, breaking on mismatch.
The `p.length - 1` in the leaf check is `usize` subtraction; it is reached
only with a non-empty path (`try_match` breaks on empty paths), where `Nat`
truncation agrees with Rust. -/
def try_match_segments (segs : List (Segment α)) (h : Handle α) (args : List (Arg α))
    (p : List Char) (s e : Nat) : Res α :=
  match segs, h with
  | [], .block subs => try_sub_patterns subs args p s e
  | [], .sub routes =>
    if s = 0 then .underflow
    else
      match internal_handle routes p (s - 1) with
      | .result r => .ret r
      | .diverge => .diverge
      | .underflow => .underflow
  | [], .leaf id =>
    if e = p.length ∨ (e = p.length - 1 ∧ p.drop e = ['/']) then .ret (.ok (id, args))
    else .next
  | .untyped :: rest, h =>
    let s' := advance_start p e
    try_match_segments rest h (args ++ [.str (slice p s e)]) p s' (find_next_slash_index p s')
  | .optTyped pr :: rest, h =>
    match pr (slice p s e) with
    | some v =>
      let s' := advance_start p e
      try_match_segments rest h (args ++ [.opt (some v)]) p s' (find_next_slash_index p s')
    | none => try_match_segments rest h (args ++ [.opt none]) p s e
  | [.typed pr], .leaf id =>
    match pr (slice p s p.length) with
    | some v => try_match_segments [] (.leaf id) (args ++ [.val v]) p s p.length
    | none => .next
  | .typed pr :: rest, h =>
    match pr (slice p s e) with
    | some v =>
      let s' := advance_start p e
      try_match_segments rest h (args ++ [.val v]) p s' (find_next_slash_index p s')
    | none => .next
  | .lit l :: rest, h =>
    if slice p s e = l then
      let s' := advance_start p e
      try_match_segments rest h args p s' (find_next_slash_index p s')
    else .next
termination_by sizeOf segs + sizeOf h
decreasing_by all_goals simp_wf <;> omega

/-- Embeds the sub-pattern rule of `try_match_segments!` (line 81): one
single-shot `loop` per sub-pattern with `start`/`end` rebound.  When every
sub-pattern breaks, the expansion falls through to the end of the enclosing
`loop`'s body, which then repeats with identical state: the program diverges
(`Res.diverge`). -/
def try_sub_patterns (subs : Routes α) (args : List (Arg α)) (p : List Char) (s e : Nat) : Res α :=
  match subs with
  | .nil => .diverge
  | .cons pat h tl =>
    match try_match_segments pat h args p s e with
    | .next => try_sub_patterns tl args p s e
    | r => r
termination_by sizeOf subs + 1
decreasing_by all_goals simp_wf <;> omega

end

/-- Embeds `Router::handle` (modelled from the spec §4.2: the root router's
matcher is invoked on the request path from offset `0`). -/
def handle (routes : Routes α) (p : List Char) : MOut α :=
  internal_handle routes p 0

/-! ### Cursor/suffix correspondence

`At p s X` says that the cursor position `s` is in bounds and that `X` is the
remaining suffix of the path from `s`.  `sidx X` is the offset of the first
`/` in the suffix (or its length), so that under `At p s X` the `end` cursor
computed by `find_next_slash_index p s` is exactly `s + sidx X`. -/

/-- Offset of the first `/` in a suffix, or the suffix length when there is
none. -/
def sidx (X : List Char) : Nat :=
  match strFind X '/' with
  | some i => i
  | none => X.length

/-- The cursor `s` points at the suffix `X` of `p`. -/
def At (p : List Char) (s : Nat) (X : List Char) : Prop :=
  p.drop s = X ∧ s + X.length = p.length

/-- The local-advance offset within the suffix corresponding to
`advance_start`. -/
def adv_off (X : List Char) : Nat :=
  if sidx X + 1 < X.length then sidx X + 1 else sidx X

/-- The leaf termination check of `handle_match!`, phrased on the suffix. -/
def term_ok (X : List Char) : Prop :=
  sidx X = X.length ∨ X.drop (sidx X) = ['/']

theorem strFind_none_of_not_mem {X : List Char} {c : Char} (h : c ∉ X) :
    strFind X c = none := by
  induction X with
  | nil => rfl
  | cons d ds ih =>
    simp only [List.mem_cons, not_or] at h
    simp [strFind, Ne.symm h.1, ih h.2]

theorem strFind_append_slash {a : List Char} (r : List Char) (ha : '/' ∉ a) :
    strFind (a ++ '/' :: r) '/' = some a.length := by
  induction a with
  | nil => simp [strFind]
  | cons d ds ih =>
    simp only [List.mem_cons, not_or] at ha
    simp [strFind, Ne.symm ha.1, ih ha.2]

theorem strFind_some_spec {X : List Char} {c : Char} {i : Nat}
    (h : strFind X c = some i) : i < X.length ∧ X[i]? = some c ∧
      ∀ j, j < i → X[j]? ≠ some c := by
  induction X generalizing i with
  | nil => simp [strFind] at h
  | cons d ds ih =>
    by_cases hd : d = c
    · simp [strFind, hd] at h
      subst h hd
      simp
    · simp only [strFind, if_neg hd, Option.map_eq_some'] at h
      obtain ⟨j, hj, rfl⟩ := h
      obtain ⟨h1, h2, h3⟩ := ih hj
      refine ⟨by simpa using h1, by simpa using h2, ?_⟩
      intro k hk
      match k with
      | 0 => simpa using hd
      | k + 1 =>
        simp only [List.getElem?_cons_succ]
        exact h3 k (by omega)

theorem sidx_le (X : List Char) : sidx X ≤ X.length := by
  unfold sidx
  cases h : strFind X '/' with
  | none => exact le_rfl
  | some i => exact le_of_lt (strFind_some_spec h).1

theorem sidx_append {a : List Char} (r : List Char) (ha : '/' ∉ a) :
    sidx (a ++ '/' :: r) = a.length := by
  unfold sidx
  rw [strFind_append_slash r ha]

theorem sidx_no_slash {a : List Char} (ha : '/' ∉ a) : sidx a = a.length := by
  unfold sidx
  rw [strFind_none_of_not_mem ha]

theorem seg0_append {a : List Char} (r : List Char) (ha : '/' ∉ a) :
    (a ++ '/' :: r).take (sidx (a ++ '/' :: r)) = a := by
  rw [sidx_append r ha, List.take_left]

theorem seg0_no_slash {a : List Char} (ha : '/' ∉ a) : a.take (sidx a) = a := by
  rw [sidx_no_slash ha, List.take_length]

theorem adv_off_append {a r : List Char} (ha : '/' ∉ a) (hr : r ≠ []) :
    adv_off (a ++ '/' :: r) = a.length + 1 := by
  have hlen : (a ++ '/' :: r).length = a.length + 1 + r.length := by simp; omega
  have : 0 < r.length := List.length_pos.mpr hr
  unfold adv_off
  rw [sidx_append r ha, if_pos (by omega)]

theorem drop_adv_append (a r : List Char) :
    (a ++ '/' :: r).drop (a.length + 1) = r := by
  rw [show a.length + 1 = (a ++ ['/']).length by simp, show a ++ '/' :: r = (a ++ ['/']) ++ r by simp,
    List.drop_left]

theorem adv_off_append_nil {a : List Char} (ha : '/' ∉ a) :
    adv_off (a ++ ['/']) = a.length := by
  have h1 : sidx (a ++ ['/']) = a.length := sidx_append [] ha
  unfold adv_off
  rw [h1, if_neg (by simp)]

theorem drop_adv_append_nil (a : List Char) :
    (a ++ ['/']).drop a.length = ['/'] := List.drop_left a ['/']

theorem adv_off_no_slash {a : List Char} (ha : '/' ∉ a) : adv_off a = a.length := by
  unfold adv_off
  rw [sidx_no_slash ha, if_neg (by omega)]

theorem at_start (t : List Char) : At ('/' :: t) 1 t := by
  constructor
  · simp
  · simp; omega

theorem at_drop {p : List Char} {s : Nat} {X : List Char} (h : At p s X) :
    p.drop s = X := h.1

theorem at_len {p : List Char} {s : Nat} {X : List Char} (h : At p s X) :
    s + X.length = p.length := h.2

theorem find_at {p : List Char} {s : Nat} {X : List Char} (h : At p s X) :
    find_next_slash_index p s = s + sidx X := by
  unfold find_next_slash_index sidx
  rw [h.1]
  cases hf : strFind X '/' with
  | some i => rfl
  | none => exact (h.2).symm

theorem slice_at {p : List Char} {s : Nat} {X : List Char} (h : At p s X) (k : Nat) :
    slice p s (s + k) = X.take k := by
  unfold slice
  rw [List.drop_take, Nat.add_sub_cancel_left, h.1]

theorem slice_all_at {p : List Char} {s : Nat} {X : List Char} (h : At p s X) :
    slice p s p.length = X := by
  unfold slice
  rw [List.take_length, h.1]

theorem advance_at {p : List Char} {s : Nat} {X : List Char} (h : At p s X) :
    advance_start p (s + sidx X) = s + adv_off X := by
  unfold advance_start adv_off
  have hl := h.2
  by_cases hc : sidx X + 1 < X.length
  · rw [if_pos (by omega), if_pos hc]; omega
  · rw [if_neg (by omega), if_neg hc]

theorem at_adv {p : List Char} {s : Nat} {X : List Char} (h : At p s X) :
    At p (s + adv_off X) (X.drop (adv_off X)) := by
  have hoff : adv_off X ≤ X.length := by
    unfold adv_off
    have := sidx_le X
    by_cases hc : sidx X + 1 < X.length
    · rw [if_pos hc]; omega
    · rw [if_neg hc]; omega
  constructor
  · rw [← List.drop_drop, h.1]
  · have := h.2
    have := List.length_drop (adv_off X) X
    omega

theorem term_at {p : List Char} {s : Nat} {X : List Char} (h : At p s X) :
    (s + sidx X = p.length ∨ (s + sidx X = p.length - 1 ∧ p.drop (s + sidx X) = ['/']))
      ↔ term_ok X := by
  have hl := h.2
  have hsx := sidx_le X
  have hdrop : p.drop (s + sidx X) = X.drop (sidx X) := by
    rw [← List.drop_drop, h.1]
  unfold term_ok
  constructor
  · rintro (h1 | ⟨h1, h2⟩)
    · left; omega
    · right; rw [← hdrop]; exact h2
  · rintro (h1 | h1)
    · left; omega
    · right
      have hlen : X.length - sidx X = 1 := by
        have := congrArg List.length h1
        simp [List.length_drop] at this
        omega
      exact ⟨by omega, by rw [hdrop]; exact h1⟩

theorem term_ok_nil : term_ok ([] : List Char) := by
  left; rfl

theorem term_ok_slash : term_ok ['/'] := by
  right; rfl

/-! ### Decimal printing and parsing

Modelled from the spec: typed segments carry a parser capability
(`str::parse::<ty>`, §4.1) and the path builder stringifies argument values
(`to_string()`, §4.4).  The concrete argument types (`token::Amount`,
`Epoch`) live outside the sources; following the spec's concrete scenarios
(decimal numerals such as `123000000`), they are modelled as natural numbers
printed to and parsed from decimal digit strings. -/

/-- The character of a decimal digit. -/
def digit_char (d : Nat) : Char :=
  match d with
  | 0 => '0' | 1 => '1' | 2 => '2' | 3 => '3' | 4 => '4'
  | 5 => '5' | 6 => '6' | 7 => '7' | 8 => '8' | _ => '9'

/-- Modelled from the spec: stringification of a numeric argument value in
decimal (most significant digit first). -/
def print_nat (n : Nat) : List Char :=
  if h : n < 10 then [digit_char n]
  else print_nat (n / 10) ++ [digit_char (n % 10)]
termination_by n
decreasing_by exact Nat.div_lt_self (by omega) (by omega)

def parse_nat_go : List Char → Nat → Option Nat
  | [], acc => some acc
  | c :: cs, acc =>
    if c.isDigit then parse_nat_go cs (acc * 10 + (c.toNat - 48)) else none

/-- Modelled from the spec: the parser capability of a numeric typed segment —
a non-empty all-digit string parses to its decimal value, anything else
fails. -/
def parse_nat (s : List Char) : Option Nat :=
  if s = [] then none else parse_nat_go s 0

theorem digit_char_isDigit (d : Nat) : (digit_char d).isDigit = true := by
  unfold digit_char
  split <;> decide

theorem digit_char_toNat {d : Nat} (hd : d < 10) : (digit_char d).toNat - 48 = d := by
  interval_cases d <;> decide

theorem print_nat_digits (n : Nat) : ∀ c ∈ print_nat n, c.isDigit = true := by
  induction n using Nat.strong_induction_on with
  | _ n ih =>
    intro c hc
    unfold print_nat at hc
    split at hc
    · simp at hc
      subst hc
      exact digit_char_isDigit n
    · rename_i hn
      rcases List.mem_append.mp hc with h | h
      · exact ih (n / 10) (Nat.div_lt_self (by omega) (by omega)) c h
      · simp at h
        subst h
        exact digit_char_isDigit (n % 10)

theorem print_nat_ne_nil (n : Nat) : print_nat n ≠ [] := by
  unfold print_nat
  split <;> simp

theorem slash_not_digit : ('/').isDigit = false := by decide

theorem print_nat_no_slash (n : Nat) : '/' ∉ print_nat n := by
  intro h
  have := print_nat_digits n '/' h
  simp [slash_not_digit] at this

/-- A printed numeral is never equal to a string containing a non-digit. -/
theorem print_nat_ne_of_nondigit {l : List Char} {c : Char} (hc : c ∈ l)
    (hnd : c.isDigit = false) (n : Nat) : print_nat n ≠ l := by
  intro h
  have := print_nat_digits n c (h ▸ hc)
  rw [hnd] at this
  exact Bool.false_ne_true this

theorem parse_nat_go_cons (c : Char) (cs : List Char) (acc : Nat) :
    parse_nat_go (c :: cs) acc =
      if c.isDigit then parse_nat_go cs (acc * 10 + (c.toNat - 48)) else none := rfl

theorem parse_nat_go_append (xs ys : List Char) (acc : Nat) :
    parse_nat_go (xs ++ ys) acc =
      match parse_nat_go xs acc with
      | some a => parse_nat_go ys a
      | none => none := by
  induction xs generalizing acc with
  | nil => rfl
  | cons c cs ih =>
    rw [List.cons_append, parse_nat_go_cons, parse_nat_go_cons]
    by_cases hc : c.isDigit
    · simp only [hc, if_true]
      exact ih _
    · simp [hc]

theorem parse_nat_go_print (n : Nat) : ∀ acc,
    parse_nat_go (print_nat n) acc = some (acc * 10 ^ (print_nat n).length + n) := by
  induction n using Nat.strong_induction_on with
  | _ n ih =>
    intro acc
    unfold print_nat
    split
    · rename_i hn
      simp [parse_nat_go, digit_char_isDigit, digit_char_toNat hn]
    · rename_i hn
      rw [parse_nat_go_append, ih (n / 10) (Nat.div_lt_self (by omega) (by omega)) acc]
      simp only [parse_nat_go, digit_char_isDigit, if_true,
        digit_char_toNat (Nat.mod_lt n (by omega)), List.length_append,
        List.length_singleton]
      congr 1
      have hmod := Nat.div_add_mod n 10
      ring_nf
      omega

theorem parse_print (n : Nat) : parse_nat (print_nat n) = some n := by
  unfold parse_nat
  rw [if_neg (print_nat_ne_nil n), parse_nat_go_print n 0]
  simp

theorem parse_nat_go_none {s : List Char} {c : Char} (hc : c ∈ s)
    (hnd : c.isDigit = false) (acc : Nat) : parse_nat_go s acc = none := by
  induction s generalizing acc with
  | nil => simp at hc
  | cons d ds ih =>
    unfold parse_nat_go
    rcases List.mem_cons.mp hc with h | h
    · subst h
      simp [hnd]
    · by_cases hd : d.isDigit
      · simp only [hd, if_true]
        exact ih h _
      · simp [hd]

theorem parse_nat_none_of_nondigit {s : List Char} {c : Char} (hc : c ∈ s)
    (hnd : c.isDigit = false) : parse_nat s = none := by
  unfold parse_nat
  split
  · rfl
  · exact parse_nat_go_none hc hnd 0

theorem parse_nat_nil : parse_nat [] = none := rfl

/-! ### Step lemmas

One lemma per `try_match_segments!` rule, phrased through `At`: whenever the
cursor pair is in the canonical state `(s, s + sidx X)` for the suffix `X`,
one matching step either breaks or moves to the canonical state of the
advanced suffix. -/

theorem tms_lit_hit {p : List Char} {s : Nat} {X : List Char} (hA : At p s X)
    {l : List Char} (hl : X.take (sidx X) = l)
    (rest : List (Segment α)) (h : Handle α) (args : List (Arg α)) :
    try_match_segments (.lit l :: rest) h args p s (s + sidx X)
      = try_match_segments rest h args p (s + adv_off X)
          (s + adv_off X + sidx (X.drop (adv_off X))) := by
  have hsl : slice p s (s + sidx X) = l := by rw [slice_at hA, hl]
  have hadv := advance_at hA
  have hfind := find_at (at_adv hA)
  simp only [try_match_segments, hsl, if_pos rfl, hadv, hfind, ite_true]

theorem tms_lit_miss {p : List Char} {s : Nat} {X : List Char} (hA : At p s X)
    {l : List Char} (hl : X.take (sidx X) ≠ l)
    (rest : List (Segment α)) (h : Handle α) (args : List (Arg α)) :
    try_match_segments (.lit l :: rest) h args p s (s + sidx X) = .next := by
  have hsl : slice p s (s + sidx X) = X.take (sidx X) := slice_at hA _
  simp only [try_match_segments, hsl, if_neg hl]

theorem tms_untyped {p : List Char} {s : Nat} {X : List Char} (hA : At p s X)
    (rest : List (Segment α)) (h : Handle α) (args : List (Arg α)) :
    try_match_segments (.untyped :: rest) h args p s (s + sidx X)
      = try_match_segments rest h (args ++ [.str (X.take (sidx X))]) p (s + adv_off X)
          (s + adv_off X + sidx (X.drop (adv_off X))) := by
  have hsl : slice p s (s + sidx X) = X.take (sidx X) := slice_at hA _
  have hadv := advance_at hA
  have hfind := find_at (at_adv hA)
  simp only [try_match_segments, hsl, hadv, hfind]

theorem tms_opt_hit {p : List Char} {s : Nat} {X : List Char} (hA : At p s X)
    {pr : List Char → Option α} {v : α} (hp : pr (X.take (sidx X)) = some v)
    (rest : List (Segment α)) (h : Handle α) (args : List (Arg α)) :
    try_match_segments (.optTyped pr :: rest) h args p s (s + sidx X)
      = try_match_segments rest h (args ++ [.opt (some v)]) p (s + adv_off X)
          (s + adv_off X + sidx (X.drop (adv_off X))) := by
  have hsl : slice p s (s + sidx X) = X.take (sidx X) := slice_at hA _
  have hadv := advance_at hA
  have hfind := find_at (at_adv hA)
  simp only [try_match_segments, hsl, hp, hadv, hfind]

theorem tms_opt_miss {p : List Char} {s : Nat} {X : List Char} (hA : At p s X)
    {pr : List Char → Option α} (hp : pr (X.take (sidx X)) = none)
    (rest : List (Segment α)) (h : Handle α) (args : List (Arg α)) :
    try_match_segments (.optTyped pr :: rest) h args p s (s + sidx X)
      = try_match_segments rest h (args ++ [.opt none]) p s (s + sidx X) := by
  have hsl : slice p s (s + sidx X) = X.take (sidx X) := slice_at hA _
  simp only [try_match_segments, hsl, hp]

theorem tms_typed_cons_hit {p : List Char} {s : Nat} {X : List Char} (hA : At p s X)
    {pr : List Char → Option α} {v : α} (hp : pr (X.take (sidx X)) = some v)
    (s1 : Segment α) (rest : List (Segment α)) (h : Handle α) (args : List (Arg α)) :
    try_match_segments (.typed pr :: s1 :: rest) h args p s (s + sidx X)
      = try_match_segments (s1 :: rest) h (args ++ [.val v]) p (s + adv_off X)
          (s + adv_off X + sidx (X.drop (adv_off X))) := by
  have hsl : slice p s (s + sidx X) = X.take (sidx X) := slice_at hA _
  have hadv := advance_at hA
  have hfind := find_at (at_adv hA)
  simp only [try_match_segments, hsl, hp, hadv, hfind]

theorem tms_typed_cons_miss {p : List Char} {s : Nat} {X : List Char} (hA : At p s X)
    {pr : List Char → Option α} (hp : pr (X.take (sidx X)) = none)
    (s1 : Segment α) (rest : List (Segment α)) (h : Handle α) (args : List (Arg α)) :
    try_match_segments (.typed pr :: s1 :: rest) h args p s (s + sidx X) = .next := by
  have hsl : slice p s (s + sidx X) = X.take (sidx X) := slice_at hA _
  simp only [try_match_segments, hsl, hp]

theorem tms_typed_last_block_hit {p : List Char} {s : Nat} {X : List Char} (hA : At p s X)
    {pr : List Char → Option α} {v : α} (hp : pr (X.take (sidx X)) = some v)
    (subs : Routes α) (args : List (Arg α)) :
    try_match_segments [.typed pr] (.block subs) args p s (s + sidx X)
      = try_match_segments [] (.block subs) (args ++ [.val v]) p (s + adv_off X)
          (s + adv_off X + sidx (X.drop (adv_off X))) := by
  have hsl : slice p s (s + sidx X) = X.take (sidx X) := slice_at hA _
  have hadv := advance_at hA
  have hfind := find_at (at_adv hA)
  simp only [try_match_segments, hsl, hp, hadv, hfind]

theorem tms_catchall_hit {p : List Char} {s : Nat} {X : List Char} (hA : At p s X)
    {pr : List Char → Option α} {v : α} (hp : pr X = some v)
    (id : Nat) (args : List (Arg α)) (e : Nat) :
    try_match_segments [.typed pr] (.leaf id) args p s e
      = .ret (.ok (id, args ++ [.val v])) := by
  have hsl : slice p s p.length = X := slice_all_at hA
  simp only [try_match_segments, hsl, hp, true_or, ite_true, if_pos (Or.inl rfl)]

theorem tms_catchall_miss {p : List Char} {s : Nat} {X : List Char} (hA : At p s X)
    {pr : List Char → Option α} (hp : pr X = none)
    (id : Nat) (args : List (Arg α)) (e : Nat) :
    try_match_segments [.typed pr] (.leaf id) args p s e = .next := by
  have hsl : slice p s p.length = X := slice_all_at hA
  simp only [try_match_segments, hsl, hp]

theorem tms_term_ret {p : List Char} {s : Nat} {X : List Char} (hA : At p s X)
    (ht : term_ok X) (id : Nat) (args : List (Arg α)) :
    try_match_segments ([] : List (Segment α)) (.leaf id) args p s (s + sidx X)
      = .ret (.ok (id, args)) := by
  simp only [try_match_segments, if_pos ((term_at hA).mpr ht)]

theorem tms_term_next {p : List Char} {s : Nat} {X : List Char} (hA : At p s X)
    (ht : ¬ term_ok X) (id : Nat) (args : List (Arg α)) :
    try_match_segments ([] : List (Segment α)) (.leaf id) args p s (s + sidx X) = .next := by
  simp only [try_match_segments, if_neg (fun hc => ht ((term_at hA).mp hc))]

theorem tms_block (subs : Routes α) (args : List (Arg α)) (p : List Char) (s e : Nat) :
    try_match_segments ([] : List (Segment α)) (.block subs) args p s e
      = try_sub_patterns subs args p s e := by
  simp only [try_match_segments]

theorem tms_sub_result {routes : Routes α} {p : List Char} {s : Nat}
    {r : Except RouterError (Answer α)} (hs : 1 ≤ s)
    (hres : internal_handle routes p (s - 1) = .result r)
    (args : List (Arg α)) (e : Nat) :
    try_match_segments ([] : List (Segment α)) (.sub routes) args p s e = .ret r := by
  simp only [try_match_segments, if_neg (by omega : ¬ s = 0), hres]

theorem try_match_at {p : List Char} {s0 : Nat} {X : List Char}
    (hp1 : p.take 1 = ['/']) (hA : At p (s0 + 1) X) (hX : X ≠ [])
    (pat : List (Segment α)) (h : Handle α) :
    try_match pat h p s0 = try_match_segments pat h [] p (s0 + 1) (s0 + 1 + sidx X) := by
  have hpne : p ≠ [] := by
    intro hc
    rw [hc] at hp1
    simp at hp1
  have hlp := List.length_pos.mpr hX
  have h2 := hA.2
  have hlen : ¬ p.length ≤ s0 + 1 := by omega
  have hfind := find_at hA
  have hcond : ¬ (p = [] ∨ p.take 1 ≠ ['/']) := by
    push_neg
    exact ⟨hpne, hp1⟩
  unfold try_match
  rw [if_neg hcond, if_neg hlen, hfind]

theorem try_match_at_nil {p : List Char} {s0 : Nat}
    (hA : At p (s0 + 1) ([] : List Char)) (pat : List (Segment α)) (h : Handle α) :
    try_match pat h p s0 = .next := by
  have h2 := hA.2
  simp only [List.length_nil] at h2
  unfold try_match
  by_cases hc : p = [] ∨ p.take 1 ≠ ['/']
  · rw [if_pos hc]
  · rw [if_neg hc, if_pos (by omega)]

theorem ih_nil (p : List Char) (s0 : Nat) :
    internal_handle (.nil : Routes α) p s0 = .result (.error (.wrongPath p)) := by
  simp only [internal_handle]

theorem ih_next {pat : List (Segment α)} {h : Handle α} {p : List Char} {s0 : Nat}
    (hn : try_match pat h p s0 = .next) (tl : Routes α) :
    internal_handle (.cons pat h tl) p s0 = internal_handle tl p s0 := by
  simp only [internal_handle, hn]

theorem ih_ret {pat : List (Segment α)} {h : Handle α} {p : List Char} {s0 : Nat}
    {r : Except RouterError (Answer α)} (hn : try_match pat h p s0 = .ret r) (tl : Routes α) :
    internal_handle (.cons pat h tl) p s0 = .result r := by
  simp only [internal_handle, hn]

theorem tsp_nil (args : List (Arg α)) (p : List Char) (s e : Nat) :
    try_sub_patterns (.nil : Routes α) args p s e = .diverge := by
  simp only [try_sub_patterns]

theorem tsp_next {pat : List (Segment α)} {h : Handle α} {args : List (Arg α)}
    {p : List Char} {s e : Nat}
    (hn : try_match_segments pat h args p s e = .next) (tl : Routes α) :
    try_sub_patterns (.cons pat h tl) args p s e = try_sub_patterns tl args p s e := by
  simp only [try_sub_patterns, hn]

theorem tsp_ret {pat : List (Segment α)} {h : Handle α} {args : List (Arg α)}
    {p : List Char} {s e : Nat} {r : Except RouterError (Answer α)}
    (hn : try_match_segments pat h args p s e = .ret r) (tl : Routes α) :
    try_sub_patterns (.cons pat h tl) args p s e = .ret r := by
  simp only [try_sub_patterns, hn]

/-! ### The routers of the repository's test module

`test_rpc` and `test_sub_rpc` embed the `router!` invocations `TEST_RPC` and
`TEST_SUB_RPC` (router.rs lines 757-783).  Handler functions are identified by
numbers in declaration order:
`a` = 1, `b0i` = 2, `b0ii` = 3, `b1` = 4, `b2i` = 5, `b3i` = 6, `b3` = 7,
`b3ii` = 8, `b3iii` = 9, `b3iiii` = 10, `x` = 11, `y` = 12, `z` = 13.
`token::Amount` and `Epoch` arguments are modelled as `Nat` with the decimal
parser `parse_nat`. -/

def test_sub_rpc : Routes Nat :=
  .cons [.lit ['x']] (.leaf 11)
    (.cons [.lit ['y'], .untyped] (.leaf 12)
      (.cons [.lit ['z'], .untyped] (.leaf 13) .nil))

/-- The block `( "0" ) = ( "i" = b0i, "ii" = b0ii )`. -/
def b0_block : Routes Nat :=
  .cons [.lit ['i']] (.leaf 2) (.cons [.lit ['i', 'i']] (.leaf 3) .nil)

/-- The block `( "2" ) = ( "i" / [balance] = b2i )`. -/
def b2_block : Routes Nat :=
  .cons [.lit ['i'], .typed parse_nat] (.leaf 5) .nil

/-- The block `( "3" / [a1] / [a2] ) = ( ... )` with its five sub-patterns in
declaration order. -/
def b3_block : Routes Nat :=
  .cons [.lit ['i'], .typed parse_nat] (.leaf 6)
    (.cons [.typed parse_nat] (.leaf 7)
      (.cons [.typed parse_nat, .lit ['i', 'i']] (.leaf 8)
        (.cons [.optTyped parse_nat, .lit ['i', 'i', 'i']] (.leaf 9)
          (.cons [.lit ['i', 'i', 'i', 'i'], .optTyped parse_nat, .lit ['x', 'y', 'z'],
              .optTyped parse_nat] (.leaf 10) .nil))))

/-- The block bound to the `( "b" )` route. -/
def b_block : Routes Nat :=
  .cons [.lit ['0']] (.block b0_block)
    (.cons [.lit ['1']] (.leaf 4)
      (.cons [.lit ['2']] (.block b2_block)
        (.cons [.lit ['3'], .typed parse_nat, .typed parse_nat] (.block b3_block) .nil)))

/-- The `TEST_RPC` router. -/
def test_rpc : Routes Nat :=
  .cons [.lit ['s', 'u', 'b']] (.sub test_sub_rpc)
    (.cons [.lit ['a']] (.leaf 1)
      (.cons [.lit ['b']] (.block b_block) .nil))

/-! ### Path construction

Embeds the `[<$handle _path>]` methods generated by
`pattern_and_handler_to_method!` (router.rs lines 310-329):
`itertools::join` of the prefix and the per-segment contributions, with `None`
entries of optional arguments dropped by `filter_map`. -/

/-- Embeds `itertools::join(pieces, "/")`. -/
def join_pieces : List (List Char) → List Char
  | [] => []
  | [x] => x
  | x :: xs => x ++ '/' :: join_pieces xs

/-- Join the `Option`al piece list, skipping `None` entries
(`filter_map(|x| x)`). -/
def join_path (pieces : List (Option (List Char))) : List Char :=
  join_pieces (pieces.filterMap id)

/-- The prefix of the `TEST_SUB_RPC` sub-router mounted at `( "sub" )`:
`[prefix, "sub"].concat().join("/")` with the root prefix being the empty
string (router.rs lines 528-533). -/
def sub_router_root : List Char := join_pieces [[], ['s', 'u', 'b']]

def a_path : List Char := join_path [some [], some ['a']]

def b0i_path : List Char := join_path [some [], some ['b'], some ['0'], some ['i']]

def b0ii_path : List Char := join_path [some [], some ['b'], some ['0'], some ['i', 'i']]

def b1_path : List Char := join_path [some [], some ['b'], some ['1']]

def b2i_path (balance : Nat) : List Char :=
  join_path [some [], some ['b'], some ['2'], some ['i'], some (print_nat balance)]

def b3i_path (a1 a2 a3 : Nat) : List Char :=
  join_path [some [], some ['b'], some ['3'], some (print_nat a1), some (print_nat a2),
    some ['i'], some (print_nat a3)]

def b3_path (a1 a2 a3 : Nat) : List Char :=
  join_path [some [], some ['b'], some ['3'], some (print_nat a1), some (print_nat a2),
    some (print_nat a3)]

def b3ii_path (a1 a2 a3 : Nat) : List Char :=
  join_path [some [], some ['b'], some ['3'], some (print_nat a1), some (print_nat a2),
    some (print_nat a3), some ['i', 'i']]

def b3iii_path (a1 a2 : Nat) (a3 : Option Nat) : List Char :=
  join_path [some [], some ['b'], some ['3'], some (print_nat a1), some (print_nat a2),
    a3.map print_nat, some ['i', 'i', 'i']]

def b3iiii_path (a1 a2 : Nat) (a3 a4 : Option Nat) : List Char :=
  join_path [some [], some ['b'], some ['3'], some (print_nat a1), some (print_nat a2),
    some ['i', 'i', 'i', 'i'], a3.map print_nat, some ['x', 'y', 'z'], a4.map print_nat]

def x_path : List Char := join_path [some sub_router_root, some ['x']]

def y_path (arg : List Char) : List Char :=
  join_path [some sub_router_root, some ['y'], some arg]

def z_path (arg : List Char) : List Char :=
  join_path [some sub_router_root, some ['z'], some arg]

end QueryRouter

namespace QueryRouter

theorem handle_b_entry {t : List Char} (ht : t ≠ []) {r : Except RouterError (Answer Nat)}
    (hblk : try_sub_patterns b_block [] ('/' :: 'b' :: '/' :: t) 3 (3 + sidx t) = .ret r) :
    internal_handle test_rpc ('/' :: 'b' :: '/' :: t) 0 = .result r := by
  set p : List Char := '/' :: 'b' :: '/' :: t with hp
  have hp1 : p.take 1 = ['/'] := by rw [hp]; rfl
  have hA0 : At p 1 ('b' :: '/' :: t) := at_start _
  have hseg0 : ('b' :: '/' :: t).take (sidx ('b' :: '/' :: t)) = ['b'] := by
    have := seg0_append (a := ['b']) t (by decide)
    simpa using this
  have hadv : adv_off ('b' :: '/' :: t) = 2 := by
    have := adv_off_append (a := ['b']) (r := t) (by decide) ht
    simpa using this
  have hdrop : ('b' :: '/' :: t).drop 2 = t := rfl
  have h1 : try_match [.lit ['s', 'u', 'b']] (.sub test_sub_rpc) p 0 = .next := by
    rw [try_match_at hp1 hA0 (by simp)]
    exact tms_lit_miss hA0 (by rw [hseg0]; decide) _ _ _
  have h2 : try_match [.lit ['a']] (.leaf 1 : Handle Nat) p 0 = .next := by
    rw [try_match_at hp1 hA0 (by simp)]
    exact tms_lit_miss hA0 (by rw [hseg0]; decide) _ _ _
  have h3 : try_match [.lit ['b']] (.block b_block) p 0 = .ret r := by
    rw [try_match_at hp1 hA0 (by simp)]
    simp only [Nat.zero_add]
    rw [tms_lit_hit hA0 hseg0 [] _ []]
    rw [hadv, hdrop, tms_block]
    norm_num
    exact hblk
  show internal_handle (.cons [.lit ['s', 'u', 'b']] (.sub test_sub_rpc)
    (.cons [.lit ['a']] (.leaf 1)
      (.cons [.lit ['b']] (.block b_block) .nil))) p 0 = .result r
  rw [ih_next h1, ih_next h2, ih_ret h3]

theorem b2i_round_trip (balance : Nat) :
    handle test_rpc (b2i_path balance) = .result (.ok (5, [.val balance])) := by
  have hpath : b2i_path balance
      = '/' :: 'b' :: '/' :: ('2' :: '/' :: ('i' :: '/' :: print_nat balance)) := by
    simp [b2i_path, join_path, join_pieces, print_nat_ne_nil balance]
  rw [handle, hpath]
  apply handle_b_entry (by simp)
  set p : List Char := '/' :: 'b' :: '/' :: ('2' :: '/' :: ('i' :: '/' :: print_nat balance))
    with hp
  set d : List Char := print_nat balance with hd
  have hdne : d ≠ [] := print_nat_ne_nil balance
  -- cursor at the "2" segment
  have hA3 : At p 3 ('2' :: '/' :: ('i' :: '/' :: d)) := by
    constructor
    · rfl
    · simp [hp]; omega
  have hseg3 : (('2' : Char) :: '/' :: ('i' :: '/' :: d)).take
      (sidx ('2' :: '/' :: ('i' :: '/' :: d))) = ['2'] := by
    have := seg0_append (a := ['2']) ('i' :: '/' :: d) (by decide)
    simpa using this
  -- first sub-pattern of b_block: "0" — literal mismatch
  have m1 : try_match_segments [.lit ['0']] (.block b0_block) [] p 3
      (3 + sidx ('2' :: '/' :: ('i' :: '/' :: d))) = .next :=
    tms_lit_miss hA3 (by rw [hseg3]; decide) _ _ _
  -- second sub-pattern: "1" — literal mismatch
  have m2 : try_match_segments [.lit ['1']] (.leaf 4 : Handle Nat) [] p 3
      (3 + sidx ('2' :: '/' :: ('i' :: '/' :: d))) = .next :=
    tms_lit_miss hA3 (by rw [hseg3]; decide) _ _ _
  -- third sub-pattern: "2" — hit, then its block
  have hadv3 : adv_off ('2' :: '/' :: ('i' :: '/' :: d)) = 2 := by
    have := adv_off_append (a := ['2']) (r := 'i' :: '/' :: d) (by decide) (by simp)
    simpa using this
  have hdrop3 : (('2' : Char) :: '/' :: ('i' :: '/' :: d)).drop 2 = 'i' :: '/' :: d := rfl
  have hA5 : At p 5 ('i' :: '/' :: d) := by
    have := at_adv hA3
    rwa [hadv3, hdrop3] at this
  have hseg5 : (('i' : Char) :: '/' :: d).take (sidx ('i' :: '/' :: d)) = ['i'] := by
    have := seg0_append (a := ['i']) d (by decide)
    simpa using this
  have hadv5 : adv_off ('i' :: '/' :: d) = 2 := by
    have := adv_off_append (a := ['i']) (r := d) (by decide) hdne
    simpa using this
  have hdrop5 : (('i' : Char) :: '/' :: d).drop 2 = d := rfl
  have hA7 : At p 7 d := by
    have := at_adv hA5
    rwa [hadv5, hdrop5] at this
  have m3 : try_match_segments [.lit ['2']] (.block b2_block) [] p 3
      (3 + sidx ('2' :: '/' :: ('i' :: '/' :: d))) = .ret (.ok (5, [.val balance])) := by
    rw [tms_lit_hit hA3 hseg3 [] _ []]
    rw [hadv3, hdrop3, tms_block]
    norm_num
    -- inside b2_block: pattern ["i", [balance]] with a leaf handler: catch-all
    have inner : try_match_segments [.lit ['i'], .typed parse_nat] (.leaf 5 : Handle Nat) [] p 5
        (5 + sidx ('i' :: '/' :: d)) = .ret (.ok (5, [.val balance])) := by
      rw [tms_lit_hit hA5 hseg5 [.typed parse_nat] _ []]
      rw [hadv5, hdrop5]
      norm_num
      exact tms_catchall_hit hA7 (by rw [hd]; exact parse_print balance) 5 [] _
    show try_sub_patterns b2_block [] p 5 (5 + sidx ('i' :: '/' :: d)) = _
    rw [show b2_block = .cons [.lit ['i'], .typed parse_nat] (.leaf 5) .nil from rfl]
    rw [tsp_ret inner]
  show try_sub_patterns b_block [] p 3 (3 + sidx ('2' :: '/' :: ('i' :: '/' :: d))) = _
  rw [show b_block = .cons [.lit ['0']] (.block b0_block)
    (.cons [.lit ['1']] (.leaf 4)
      (.cons [.lit ['2']] (.block b2_block)
        (.cons [.lit ['3'], .typed parse_nat, .typed parse_nat] (.block b3_block) .nil)))
    from rfl]
  rw [tsp_next m1, tsp_next m2, tsp_ret m3]

end QueryRouter

namespace QueryRouter

theorem i_not_digit : ('i').isDigit = false := by decide

theorem handle_b3_entry (a1 a2 : Nat) {u : List Char} (hu : u ≠ [])
    {r : Except RouterError (Answer Nat)}
    (hblk : ∀ s : Nat,
      At ('/' :: 'b' :: '/' :: ('3' :: '/' :: (print_nat a1 ++ '/' :: (print_nat a2 ++ '/' :: u)))) s u →
      try_sub_patterns b3_block [.val a1, .val a2]
        ('/' :: 'b' :: '/' :: ('3' :: '/' :: (print_nat a1 ++ '/' :: (print_nat a2 ++ '/' :: u))))
        s (s + sidx u) = .ret r) :
    internal_handle test_rpc
      ('/' :: 'b' :: '/' :: ('3' :: '/' :: (print_nat a1 ++ '/' :: (print_nat a2 ++ '/' :: u)))) 0
      = .result r := by
  apply handle_b_entry (by simp)
  set d1 : List Char := print_nat a1 with hd1
  set d2 : List Char := print_nat a2 with hd2
  set p : List Char := '/' :: 'b' :: '/' :: ('3' :: '/' :: (d1 ++ '/' :: (d2 ++ '/' :: u))) with hp
  set t : List Char := '3' :: '/' :: (d1 ++ '/' :: (d2 ++ '/' :: u)) with htdef
  have hA3 : At p 3 t := by
    constructor
    · rfl
    · simp [hp, htdef]; omega
  have hseg3 : t.take (sidx t) = ['3'] := by
    have := seg0_append (a := ['3']) (d1 ++ '/' :: (d2 ++ '/' :: u)) (by decide)
    simpa [htdef] using this
  have m1 : try_match_segments [.lit ['0']] (.block b0_block) [] p 3 (3 + sidx t) = .next :=
    tms_lit_miss hA3 (by rw [hseg3]; decide) _ _ _
  have m2 : try_match_segments [.lit ['1']] (.leaf 4 : Handle Nat) [] p 3 (3 + sidx t) = .next :=
    tms_lit_miss hA3 (by rw [hseg3]; decide) _ _ _
  have m3 : try_match_segments [.lit ['2']] (.block b2_block) [] p 3 (3 + sidx t) = .next :=
    tms_lit_miss hA3 (by rw [hseg3]; decide) _ _ _
  have hadv3 : adv_off t = 2 := by
    have := adv_off_append (a := ['3']) (r := d1 ++ '/' :: (d2 ++ '/' :: u)) (by decide) (by simp)
    simpa [htdef] using this
  have hdrop3 : t.drop 2 = d1 ++ '/' :: (d2 ++ '/' :: u) := rfl
  have hA5 : At p 5 (d1 ++ '/' :: (d2 ++ '/' :: u)) := by
    have := at_adv hA3
    rwa [hadv3, hdrop3] at this
  have hseg5 : (d1 ++ '/' :: (d2 ++ '/' :: u)).take (sidx (d1 ++ '/' :: (d2 ++ '/' :: u))) = d1 :=
    seg0_append _ (hd1 ▸ print_nat_no_slash a1)
  have hadv5 : adv_off (d1 ++ '/' :: (d2 ++ '/' :: u)) = d1.length + 1 :=
    adv_off_append (hd1 ▸ print_nat_no_slash a1) (by simp)
  have hdrop5 : (d1 ++ '/' :: (d2 ++ '/' :: u)).drop (d1.length + 1) = d2 ++ '/' :: u :=
    drop_adv_append _ _
  have hA6 : At p (5 + (d1.length + 1)) (d2 ++ '/' :: u) := by
    have := at_adv hA5
    rwa [hadv5, hdrop5] at this
  have hseg6 : (d2 ++ '/' :: u).take (sidx (d2 ++ '/' :: u)) = d2 :=
    seg0_append _ (hd2 ▸ print_nat_no_slash a2)
  have hadv6 : adv_off (d2 ++ '/' :: u) = d2.length + 1 :=
    adv_off_append (hd2 ▸ print_nat_no_slash a2) hu
  have hdrop6 : (d2 ++ '/' :: u).drop (d2.length + 1) = u := drop_adv_append _ _
  have hA7 : At p (5 + (d1.length + 1) + (d2.length + 1)) u := by
    have := at_adv hA6
    rwa [hadv6, hdrop6] at this
  have m4 : try_match_segments [.lit ['3'], .typed parse_nat, .typed parse_nat]
      (.block b3_block) [] p 3 (3 + sidx t) = .ret r := by
    rw [tms_lit_hit hA3 hseg3 [.typed parse_nat, .typed parse_nat] _ []]
    rw [hadv3, hdrop3]
    norm_num
    rw [tms_typed_cons_hit hA5 (by rw [hseg5, hd1]; exact parse_print a1) _ _ _ _]
    rw [hadv5, hdrop5]
    rw [tms_typed_last_block_hit hA6 (by rw [hseg6, hd2]; exact parse_print a2) _ _]
    rw [hadv6, hdrop6, tms_block]
    exact hblk _ hA7
  show try_sub_patterns b_block [] p 3 (3 + sidx t) = _
  rw [show b_block = .cons [.lit ['0']] (.block b0_block)
    (.cons [.lit ['1']] (.leaf 4)
      (.cons [.lit ['2']] (.block b2_block)
        (.cons [.lit ['3'], .typed parse_nat, .typed parse_nat] (.block b3_block) .nil)))
    from rfl]
  rw [tsp_next m1, tsp_next m2, tsp_next m3, tsp_ret m4]

theorem b3_round_trip (a1 a2 a3 : Nat) :
    handle test_rpc (b3_path a1 a2 a3) = .result (.ok (7, [.val a1, .val a2, .val a3])) := by
  have hpath : b3_path a1 a2 a3
      = '/' :: 'b' :: '/' :: ('3' :: '/' ::
          (print_nat a1 ++ '/' :: (print_nat a2 ++ '/' :: print_nat a3))) := by
    simp [b3_path, join_path, join_pieces, print_nat_ne_nil]
  rw [handle, hpath]
  apply handle_b3_entry a1 a2 (print_nat_ne_nil a3)
  intro s hAt
  have hsegU : (print_nat a3).take (sidx (print_nat a3)) = print_nat a3 :=
    seg0_no_slash (print_nat_no_slash a3)
  have m1 : try_match_segments [.lit ['i'], .typed parse_nat] (.leaf 6 : Handle Nat)
      [.val a1, .val a2] _ s (s + sidx (print_nat a3)) = .next :=
    tms_lit_miss hAt (by rw [hsegU]; exact print_nat_ne_of_nondigit (by simp) i_not_digit a3) _ _ _
  have m2 : try_match_segments [.typed parse_nat] (.leaf 7 : Handle Nat)
      [.val a1, .val a2] _ s (s + sidx (print_nat a3)) = .ret (.ok (7, [.val a1, .val a2, .val a3])) :=
    tms_catchall_hit hAt (parse_print a3) 7 [.val a1, .val a2] _
  rw [show b3_block = .cons [.lit ['i'], .typed parse_nat] (.leaf 6)
    (.cons [.typed parse_nat] (.leaf 7)
      (.cons [.typed parse_nat, .lit ['i', 'i']] (.leaf 8)
        (.cons [.optTyped parse_nat, .lit ['i', 'i', 'i']] (.leaf 9)
          (.cons [.lit ['i', 'i', 'i', 'i'], .optTyped parse_nat, .lit ['x', 'y', 'z'],
              .optTyped parse_nat] (.leaf 10) .nil)))) from rfl]
  rw [tsp_next m1, tsp_ret m2]

end QueryRouter

namespace QueryRouter

theorem b3_block_eq : b3_block = .cons [.lit ['i'], .typed parse_nat] (.leaf 6)
    (.cons [.typed parse_nat] (.leaf 7)
      (.cons [.typed parse_nat, .lit ['i', 'i']] (.leaf 8)
        (.cons [.optTyped parse_nat, .lit ['i', 'i', 'i']] (.leaf 9)
          (.cons [.lit ['i', 'i', 'i', 'i'], .optTyped parse_nat, .lit ['x', 'y', 'z'],
              .optTyped parse_nat] (.leaf 10) .nil)))) := rfl

theorem b3i_round_trip (a1 a2 a3 : Nat) :
    handle test_rpc (b3i_path a1 a2 a3) = .result (.ok (6, [.val a1, .val a2, .val a3])) := by
  have hpath : b3i_path a1 a2 a3
      = '/' :: 'b' :: '/' :: ('3' :: '/' ::
          (print_nat a1 ++ '/' :: (print_nat a2 ++ '/' :: ('i' :: '/' :: print_nat a3)))) := by
    simp [b3i_path, join_path, join_pieces, print_nat_ne_nil]
  rw [handle, hpath]
  apply handle_b3_entry a1 a2 (by simp)
  intro s hAt
  set d3 : List Char := print_nat a3 with hd3
  set u : List Char := 'i' :: '/' :: d3 with hu
  set p : List Char := '/' :: 'b' :: '/' :: '3' :: '/' ::
    (print_nat a1 ++ '/' :: (print_nat a2 ++ '/' :: u)) with hp
  have hsegU : u.take (sidx u) = ['i'] := by
    have := seg0_append (a := ['i']) d3 (by decide)
    simpa [hu] using this
  have hadvU : adv_off u = 2 := by
    have := adv_off_append (a := ['i']) (r := d3) (by decide) (hd3 ▸ print_nat_ne_nil a3)
    simpa [hu] using this
  have hdropU : u.drop 2 = d3 := rfl
  have hA2 : At p (s + 2) d3 := by
    have := at_adv hAt
    rwa [hadvU, hdropU] at this
  have m1 : try_match_segments [.lit ['i'], .typed parse_nat] (.leaf 6 : Handle Nat)
      [.val a1, .val a2] p s (s + sidx u) = .ret (.ok (6, [.val a1, .val a2, .val a3])) := by
    rw [tms_lit_hit hAt hsegU [.typed parse_nat] _ _]
    rw [hadvU, hdropU]
    exact tms_catchall_hit hA2 (hd3 ▸ parse_print a3) 6 [.val a1, .val a2] _
  rw [b3_block_eq, tsp_ret m1]

theorem b3ii_round_trip (a1 a2 a3 : Nat) :
    handle test_rpc (b3ii_path a1 a2 a3) = .result (.ok (8, [.val a1, .val a2, .val a3])) := by
  have hpath : b3ii_path a1 a2 a3
      = '/' :: 'b' :: '/' :: ('3' :: '/' ::
          (print_nat a1 ++ '/' :: (print_nat a2 ++ '/' ::
            (print_nat a3 ++ '/' :: ['i', 'i'])))) := by
    simp [b3ii_path, join_path, join_pieces, print_nat_ne_nil]
  rw [handle, hpath]
  apply handle_b3_entry a1 a2 (by simp)
  intro s hAt
  set d3 : List Char := print_nat a3 with hd3
  set u : List Char := d3 ++ '/' :: ['i', 'i'] with hu
  set p : List Char := '/' :: 'b' :: '/' :: '3' :: '/' ::
    (print_nat a1 ++ '/' :: (print_nat a2 ++ '/' :: u)) with hp
  have hsegU : u.take (sidx u) = d3 := seg0_append _ (hd3 ▸ print_nat_no_slash a3)
  have hadvU : adv_off u = d3.length + 1 :=
    adv_off_append (hd3 ▸ print_nat_no_slash a3) (by simp)
  have hdropU : u.drop (d3.length + 1) = ['i', 'i'] := drop_adv_append _ _
  have hA2 : At p (s + (d3.length + 1)) ['i', 'i'] := by
    have := at_adv hAt
    rwa [hadvU, hdropU] at this
  have hseg2 : (['i', 'i'] : List Char).take (sidx ['i', 'i']) = ['i', 'i'] :=
    seg0_no_slash (by decide)
  have hadv2 : adv_off (['i', 'i'] : List Char) = 2 := adv_off_no_slash (by decide)
  have hdrop2 : (['i', 'i'] : List Char).drop 2 = [] := rfl
  have hA3 : At p (s + (d3.length + 1) + 2) ([] : List Char) := by
    have := at_adv hA2
    rwa [hadv2, hdrop2] at this
  have m1 : try_match_segments [.lit ['i'], .typed parse_nat] (.leaf 6 : Handle Nat)
      [.val a1, .val a2] p s (s + sidx u) = .next :=
    tms_lit_miss hAt (by rw [hsegU, hd3]; exact print_nat_ne_of_nondigit (by simp) i_not_digit a3) _ _ _
  have m2 : try_match_segments [.typed parse_nat] (.leaf 7 : Handle Nat)
      [.val a1, .val a2] p s (s + sidx u) = .next :=
    tms_catchall_miss hAt
      (parse_nat_none_of_nondigit (by simp [hu]) slash_not_digit) 7 _ _
  have m3 : try_match_segments [.typed parse_nat, .lit ['i', 'i']] (.leaf 8 : Handle Nat)
      [.val a1, .val a2] p s (s + sidx u) = .ret (.ok (8, [.val a1, .val a2, .val a3])) := by
    rw [tms_typed_cons_hit hAt (by rw [hsegU, hd3]; exact parse_print a3) _ _ _ _]
    rw [hadvU, hdropU]
    rw [tms_lit_hit hA2 hseg2 [] _ _]
    rw [hadv2, hdrop2]
    exact tms_term_ret hA3 term_ok_nil 8 _
  rw [b3_block_eq, tsp_next m1, tsp_next m2, tsp_ret m3]

theorem b3iii_round_trip (a1 a2 : Nat) (a3 : Option Nat) :
    handle test_rpc (b3iii_path a1 a2 a3)
      = .result (.ok (9, [.val a1, .val a2, .opt a3])) := by
  rcases a3 with _ | v3
  · -- a3 = none: the piece is dropped and the path ends with "iii"
    have hpath : b3iii_path a1 a2 none
        = '/' :: 'b' :: '/' :: ('3' :: '/' ::
            (print_nat a1 ++ '/' :: (print_nat a2 ++ '/' :: ['i', 'i', 'i']))) := by
      simp [b3iii_path, join_path, join_pieces, print_nat_ne_nil]
    rw [handle, hpath]
    apply handle_b3_entry a1 a2 (by simp)
    intro s hAt
    set p : List Char := '/' :: 'b' :: '/' :: '3' :: '/' ::
      (print_nat a1 ++ '/' :: (print_nat a2 ++ '/' :: ['i', 'i', 'i'])) with hp
    have hsegU : (['i', 'i', 'i'] : List Char).take (sidx ['i', 'i', 'i']) = ['i', 'i', 'i'] :=
      seg0_no_slash (by decide)
    have hadvU : adv_off (['i', 'i', 'i'] : List Char) = 3 := adv_off_no_slash (by decide)
    have hdropU : (['i', 'i', 'i'] : List Char).drop 3 = [] := rfl
    have hA2 : At p (s + 3) ([] : List Char) := by
      have := at_adv hAt
      rwa [hadvU, hdropU] at this
    have m1 : try_match_segments [.lit ['i'], .typed parse_nat] (.leaf 6 : Handle Nat)
        [.val a1, .val a2] p s (s + sidx ['i', 'i', 'i']) = .next :=
      tms_lit_miss hAt (by rw [hsegU]; decide) _ _ _
    have m2 : try_match_segments [.typed parse_nat] (.leaf 7 : Handle Nat)
        [.val a1, .val a2] p s (s + sidx ['i', 'i', 'i']) = .next :=
      tms_catchall_miss hAt (by decide) 7 _ _
    have m3 : try_match_segments [.typed parse_nat, .lit ['i', 'i']] (.leaf 8 : Handle Nat)
        [.val a1, .val a2] p s (s + sidx ['i', 'i', 'i']) = .next :=
      tms_typed_cons_miss hAt (by rw [hsegU]; decide) _ _ _ _
    have m4 : try_match_segments [.optTyped parse_nat, .lit ['i', 'i', 'i']] (.leaf 9 : Handle Nat)
        [.val a1, .val a2] p s (s + sidx ['i', 'i', 'i'])
        = .ret (.ok (9, [.val a1, .val a2, .opt none])) := by
      rw [tms_opt_miss hAt (by rw [hsegU]; decide) _ _ _]
      rw [tms_lit_hit hAt hsegU [] _ _]
      rw [hadvU, hdropU]
      exact tms_term_ret hA2 term_ok_nil 9 _
    rw [b3_block_eq, tsp_next m1, tsp_next m2, tsp_next m3, tsp_ret m4]
  · -- a3 = some v3
    have hpath : b3iii_path a1 a2 (some v3)
        = '/' :: 'b' :: '/' :: ('3' :: '/' ::
            (print_nat a1 ++ '/' :: (print_nat a2 ++ '/' ::
              (print_nat v3 ++ '/' :: ['i', 'i', 'i'])))) := by
      simp [b3iii_path, join_path, join_pieces, print_nat_ne_nil]
    rw [handle, hpath]
    apply handle_b3_entry a1 a2 (by simp)
    intro s hAt
    set d3 : List Char := print_nat v3 with hd3
    set u : List Char := d3 ++ '/' :: ['i', 'i', 'i'] with hu
    set p : List Char := '/' :: 'b' :: '/' :: '3' :: '/' ::
      (print_nat a1 ++ '/' :: (print_nat a2 ++ '/' :: u)) with hp
    have hsegU : u.take (sidx u) = d3 := seg0_append _ (hd3 ▸ print_nat_no_slash v3)
    have hadvU : adv_off u = d3.length + 1 :=
      adv_off_append (hd3 ▸ print_nat_no_slash v3) (by simp)
    have hdropU : u.drop (d3.length + 1) = ['i', 'i', 'i'] := drop_adv_append _ _
    have hA2 : At p (s + (d3.length + 1)) (['i', 'i', 'i'] : List Char) := by
      have := at_adv hAt
      rwa [hadvU, hdropU] at this
    have hseg2 : (['i', 'i', 'i'] : List Char).take (sidx ['i', 'i', 'i']) = ['i', 'i', 'i'] :=
      seg0_no_slash (by decide)
    have hadv2 : adv_off (['i', 'i', 'i'] : List Char) = 3 := adv_off_no_slash (by decide)
    have hdrop2 : (['i', 'i', 'i'] : List Char).drop 3 = [] := rfl
    have hA3 : At p (s + (d3.length + 1) + 3) ([] : List Char) := by
      have := at_adv hA2
      rwa [hadv2, hdrop2] at this
    have m1 : try_match_segments [.lit ['i'], .typed parse_nat] (.leaf 6 : Handle Nat)
        [.val a1, .val a2] p s (s + sidx u) = .next :=
      tms_lit_miss hAt (by rw [hsegU, hd3]; exact print_nat_ne_of_nondigit (by simp) i_not_digit v3) _ _ _
    have m2 : try_match_segments [.typed parse_nat] (.leaf 7 : Handle Nat)
        [.val a1, .val a2] p s (s + sidx u) = .next :=
      tms_catchall_miss hAt
        (parse_nat_none_of_nondigit (by simp [hu]) slash_not_digit) 7 _ _
    have m3 : try_match_segments [.typed parse_nat, .lit ['i', 'i']] (.leaf 8 : Handle Nat)
        [.val a1, .val a2] p s (s + sidx u) = .next := by
      rw [tms_typed_cons_hit hAt (by rw [hsegU, hd3]; exact parse_print v3) _ _ _ _]
      rw [hadvU, hdropU]
      exact tms_lit_miss hA2 (by rw [hseg2]; decide) _ _ _
    have m4 : try_match_segments [.optTyped parse_nat, .lit ['i', 'i', 'i']] (.leaf 9 : Handle Nat)
        [.val a1, .val a2] p s (s + sidx u)
        = .ret (.ok (9, [.val a1, .val a2, .opt (some v3)])) := by
      rw [tms_opt_hit hAt (by rw [hsegU, hd3]; exact parse_print v3) _ _ _]
      rw [hadvU, hdropU]
      rw [tms_lit_hit hA2 hseg2 [] _ _]
      rw [hadv2, hdrop2]
      exact tms_term_ret hA3 term_ok_nil 9 _
    rw [b3_block_eq, tsp_next m1, tsp_next m2, tsp_next m3, tsp_ret m4]

end QueryRouter

namespace QueryRouter

theorem b3iiii_entry {p : List Char} {s : Nat} {w : List Char} (hw : w ≠ [])
    (hAt : At p s ('i' :: 'i' :: 'i' :: 'i' :: '/' :: w)) (a1 a2 : Nat)
    {r : Except RouterError (Answer Nat)}
    (h5 : try_match_segments [.optTyped parse_nat, .lit ['x', 'y', 'z'], .optTyped parse_nat]
      (.leaf 10 : Handle Nat) [.val a1, .val a2] p (s + 5) (s + 5 + sidx w) = .ret r) :
    try_sub_patterns b3_block [.val a1, .val a2] p s
      (s + sidx ('i' :: 'i' :: 'i' :: 'i' :: '/' :: w)) = .ret r := by
  set u : List Char := 'i' :: 'i' :: 'i' :: 'i' :: '/' :: w with hu
  have hsegU : u.take (sidx u) = ['i', 'i', 'i', 'i'] := by
    have := seg0_append (a := ['i', 'i', 'i', 'i']) w (by decide)
    simpa [hu] using this
  have hadvU : adv_off u = 5 := by
    have := adv_off_append (a := ['i', 'i', 'i', 'i']) (r := w) (by decide) hw
    simpa [hu] using this
  have hdropU : u.drop 5 = w := rfl
  have hA5 : At p (s + 5) w := by
    have := at_adv hAt
    rwa [hadvU, hdropU] at this
  have m1 : try_match_segments [.lit ['i'], .typed parse_nat] (.leaf 6 : Handle Nat)
      [.val a1, .val a2] p s (s + sidx u) = .next :=
    tms_lit_miss hAt (by rw [hsegU]; decide) _ _ _
  have m2 : try_match_segments [.typed parse_nat] (.leaf 7 : Handle Nat)
      [.val a1, .val a2] p s (s + sidx u) = .next :=
    tms_catchall_miss hAt (parse_nat_none_of_nondigit (by simp [hu]) slash_not_digit) 7 _ _
  have m3 : try_match_segments [.typed parse_nat, .lit ['i', 'i']] (.leaf 8 : Handle Nat)
      [.val a1, .val a2] p s (s + sidx u) = .next :=
    tms_typed_cons_miss hAt (by rw [hsegU]; decide) _ _ _ _
  have m4 : try_match_segments [.optTyped parse_nat, .lit ['i', 'i', 'i']] (.leaf 9 : Handle Nat)
      [.val a1, .val a2] p s (s + sidx u) = .next := by
    rw [tms_opt_miss hAt (by rw [hsegU]; decide) _ _ _]
    exact tms_lit_miss hAt (by rw [hsegU]; decide) _ _ _
  have m5 : try_match_segments [.lit ['i', 'i', 'i', 'i'], .optTyped parse_nat, .lit ['x', 'y', 'z'],
      .optTyped parse_nat] (.leaf 10 : Handle Nat) [.val a1, .val a2] p s (s + sidx u)
      = .ret r := by
    rw [tms_lit_hit hAt hsegU [.optTyped parse_nat, .lit ['x', 'y', 'z'], .optTyped parse_nat] _ _]
    rw [hadvU, hdropU]
    exact h5
  rw [b3_block_eq, tsp_next m1, tsp_next m2, tsp_next m3, tsp_next m4, tsp_ret m5]

theorem b3iiii_round_trip (a1 a2 : Nat) (a3 a4 : Option Nat) :
    handle test_rpc (b3iiii_path a1 a2 a3 a4)
      = .result (.ok (10, [.val a1, .val a2, .opt a3, .opt a4])) := by
  rcases a3 with _ | v3 <;> rcases a4 with _ | v4
  · -- a3 = none, a4 = none: suffix "iiii/xyz"
    have hpath : b3iiii_path a1 a2 none none
        = '/' :: 'b' :: '/' :: ('3' :: '/' :: (print_nat a1 ++ '/' :: (print_nat a2 ++ '/' ::
            ('i' :: 'i' :: 'i' :: 'i' :: '/' :: ['x', 'y', 'z'])))) := by
      simp [b3iiii_path, join_path, join_pieces, print_nat_ne_nil]
    rw [handle, hpath]
    apply handle_b3_entry a1 a2 (by simp)
    intro s hAt
    set p : List Char := '/' :: 'b' :: '/' :: '3' :: '/' :: (print_nat a1 ++ '/' ::
      (print_nat a2 ++ '/' :: ('i' :: 'i' :: 'i' :: 'i' :: '/' :: ['x', 'y', 'z']))) with hp
    apply b3iiii_entry (by decide) hAt a1 a2
    have hA5 : At p (s + 5) (['x', 'y', 'z'] : List Char) := by
      have := at_adv hAt
      have hadvU : adv_off ('i' :: 'i' :: 'i' :: 'i' :: '/' :: ['x', 'y', 'z'] : List Char) = 5 := by
        have := adv_off_append (a := ['i', 'i', 'i', 'i']) (r := ['x', 'y', 'z']) (by decide) (by decide)
        simpa using this
      rwa [hadvU] at this
    have hseg5 : (['x', 'y', 'z'] : List Char).take (sidx ['x', 'y', 'z']) = ['x', 'y', 'z'] :=
      seg0_no_slash (by decide)
    have hadv5 : adv_off (['x', 'y', 'z'] : List Char) = 3 := adv_off_no_slash (by decide)
    have hA8 : At p (s + 5 + 3) ([] : List Char) := by
      have := at_adv hA5
      rwa [hadv5] at this
    rw [tms_opt_miss hA5 (by rw [hseg5]; decide) _ _ _]
    rw [tms_lit_hit hA5 hseg5 [.optTyped parse_nat] _ _]
    rw [hadv5]
    rw [show (['x', 'y', 'z'] : List Char).drop 3 = [] from rfl]
    rw [tms_opt_miss hA8 (by decide) _ _ _]
    exact tms_term_ret hA8 term_ok_nil 10 _
  · -- a3 = none, a4 = some v4: suffix "iiii/xyz/<v4>"
    have hpath : b3iiii_path a1 a2 none (some v4)
        = '/' :: 'b' :: '/' :: ('3' :: '/' :: (print_nat a1 ++ '/' :: (print_nat a2 ++ '/' ::
            ('i' :: 'i' :: 'i' :: 'i' :: '/' :: ('x' :: 'y' :: 'z' :: '/' :: print_nat v4))))) := by
      simp [b3iiii_path, join_path, join_pieces, print_nat_ne_nil]
    rw [handle, hpath]
    apply handle_b3_entry a1 a2 (by simp)
    intro s hAt
    set d4 : List Char := print_nat v4 with hd4
    set p : List Char := '/' :: 'b' :: '/' :: '3' :: '/' :: (print_nat a1 ++ '/' ::
      (print_nat a2 ++ '/' :: ('i' :: 'i' :: 'i' :: 'i' :: '/' ::
        ('x' :: 'y' :: 'z' :: '/' :: d4)))) with hp
    apply b3iiii_entry (by simp) hAt a1 a2
    set w : List Char := 'x' :: 'y' :: 'z' :: '/' :: d4 with hw
    have hA5 : At p (s + 5) w := by
      have := at_adv hAt
      have hadvU : adv_off ('i' :: 'i' :: 'i' :: 'i' :: '/' :: w : List Char) = 5 := by
        have := adv_off_append (a := ['i', 'i', 'i', 'i']) (r := w) (by decide) (by simp [hw])
        simpa using this
      rwa [hadvU] at this
    have hseg5 : w.take (sidx w) = ['x', 'y', 'z'] := by
      have := seg0_append (a := ['x', 'y', 'z']) d4 (by decide)
      simpa [hw] using this
    have hadv5 : adv_off w = 4 := by
      have := adv_off_append (a := ['x', 'y', 'z']) (r := d4) (by decide) (hd4 ▸ print_nat_ne_nil v4)
      simpa [hw] using this
    have hdrop5 : w.drop 4 = d4 := rfl
    have hA9 : At p (s + 5 + 4) d4 := by
      have := at_adv hA5
      rwa [hadv5, hdrop5] at this
    have hseg9 : d4.take (sidx d4) = d4 := seg0_no_slash (hd4 ▸ print_nat_no_slash v4)
    have hadv9 : adv_off d4 = d4.length := adv_off_no_slash (hd4 ▸ print_nat_no_slash v4)
    have hA10 : At p (s + 5 + 4 + d4.length) ([] : List Char) := by
      have := at_adv hA9
      rwa [hadv9, List.drop_length] at this
    rw [tms_opt_miss hA5 (by rw [hseg5]; decide) _ _ _]
    rw [tms_lit_hit hA5 hseg5 [.optTyped parse_nat] _ _]
    rw [hadv5, hdrop5]
    rw [tms_opt_hit hA9 (by rw [hseg9, hd4]; exact parse_print v4) _ _ _]
    rw [hadv9, List.drop_length]
    exact tms_term_ret hA10 term_ok_nil 10 _
  · -- a3 = some v3, a4 = none: suffix "iiii/<v3>/xyz"
    have hpath : b3iiii_path a1 a2 (some v3) none
        = '/' :: 'b' :: '/' :: ('3' :: '/' :: (print_nat a1 ++ '/' :: (print_nat a2 ++ '/' ::
            ('i' :: 'i' :: 'i' :: 'i' :: '/' :: (print_nat v3 ++ '/' :: ['x', 'y', 'z']))))) := by
      simp [b3iiii_path, join_path, join_pieces, print_nat_ne_nil]
    rw [handle, hpath]
    apply handle_b3_entry a1 a2 (by simp)
    intro s hAt
    set d3 : List Char := print_nat v3 with hd3
    set p : List Char := '/' :: 'b' :: '/' :: '3' :: '/' :: (print_nat a1 ++ '/' ::
      (print_nat a2 ++ '/' :: ('i' :: 'i' :: 'i' :: 'i' :: '/' ::
        (d3 ++ '/' :: ['x', 'y', 'z'])))) with hp
    apply b3iiii_entry (by simp) hAt a1 a2
    set w : List Char := d3 ++ '/' :: ['x', 'y', 'z'] with hw
    have hA5 : At p (s + 5) w := by
      have := at_adv hAt
      have hadvU : adv_off ('i' :: 'i' :: 'i' :: 'i' :: '/' :: w : List Char) = 5 := by
        have := adv_off_append (a := ['i', 'i', 'i', 'i']) (r := w) (by decide) (by simp [hw])
        simpa using this
      rwa [hadvU] at this
    have hseg5 : w.take (sidx w) = d3 := seg0_append _ (hd3 ▸ print_nat_no_slash v3)
    have hadv5 : adv_off w = d3.length + 1 :=
      adv_off_append (hd3 ▸ print_nat_no_slash v3) (by simp)
    have hdrop5 : w.drop (d3.length + 1) = ['x', 'y', 'z'] := drop_adv_append _ _
    have hA9 : At p (s + 5 + (d3.length + 1)) (['x', 'y', 'z'] : List Char) := by
      have := at_adv hA5
      rwa [hadv5, hdrop5] at this
    have hseg9 : (['x', 'y', 'z'] : List Char).take (sidx ['x', 'y', 'z']) = ['x', 'y', 'z'] :=
      seg0_no_slash (by decide)
    have hadv9 : adv_off (['x', 'y', 'z'] : List Char) = 3 := adv_off_no_slash (by decide)
    have hA10 : At p (s + 5 + (d3.length + 1) + 3) ([] : List Char) := by
      have := at_adv hA9
      rwa [hadv9] at this
    rw [tms_opt_hit hA5 (by rw [hseg5, hd3]; exact parse_print v3) _ _ _]
    rw [hadv5, hdrop5]
    rw [tms_lit_hit hA9 hseg9 [.optTyped parse_nat] _ _]
    rw [hadv9]
    rw [show (['x', 'y', 'z'] : List Char).drop 3 = [] from rfl]
    rw [tms_opt_miss hA10 (by decide) _ _ _]
    exact tms_term_ret hA10 term_ok_nil 10 _
  · -- a3 = some v3, a4 = some v4: suffix "iiii/<v3>/xyz/<v4>"
    have hpath : b3iiii_path a1 a2 (some v3) (some v4)
        = '/' :: 'b' :: '/' :: ('3' :: '/' :: (print_nat a1 ++ '/' :: (print_nat a2 ++ '/' ::
            ('i' :: 'i' :: 'i' :: 'i' :: '/' ::
              (print_nat v3 ++ '/' :: ('x' :: 'y' :: 'z' :: '/' :: print_nat v4)))))) := by
      simp [b3iiii_path, join_path, join_pieces, print_nat_ne_nil]
    rw [handle, hpath]
    apply handle_b3_entry a1 a2 (by simp)
    intro s hAt
    set d3 : List Char := print_nat v3 with hd3
    set d4 : List Char := print_nat v4 with hd4
    set p : List Char := '/' :: 'b' :: '/' :: '3' :: '/' :: (print_nat a1 ++ '/' ::
      (print_nat a2 ++ '/' :: ('i' :: 'i' :: 'i' :: 'i' :: '/' ::
        (d3 ++ '/' :: ('x' :: 'y' :: 'z' :: '/' :: d4))))) with hp
    apply b3iiii_entry (by simp) hAt a1 a2
    set w : List Char := d3 ++ '/' :: ('x' :: 'y' :: 'z' :: '/' :: d4) with hw
    have hA5 : At p (s + 5) w := by
      have := at_adv hAt
      have hadvU : adv_off ('i' :: 'i' :: 'i' :: 'i' :: '/' :: w : List Char) = 5 := by
        have := adv_off_append (a := ['i', 'i', 'i', 'i']) (r := w) (by decide) (by simp [hw])
        simpa using this
      rwa [hadvU] at this
    have hseg5 : w.take (sidx w) = d3 := seg0_append _ (hd3 ▸ print_nat_no_slash v3)
    have hadv5 : adv_off w = d3.length + 1 :=
      adv_off_append (hd3 ▸ print_nat_no_slash v3) (by simp)
    have hdrop5 : w.drop (d3.length + 1) = 'x' :: 'y' :: 'z' :: '/' :: d4 := drop_adv_append _ _
    have hA9 : At p (s + 5 + (d3.length + 1)) ('x' :: 'y' :: 'z' :: '/' :: d4) := by
      have := at_adv hA5
      rwa [hadv5, hdrop5] at this
    have hseg9 : (('x' : Char) :: 'y' :: 'z' :: '/' :: d4).take
        (sidx ('x' :: 'y' :: 'z' :: '/' :: d4)) = ['x', 'y', 'z'] := by
      have := seg0_append (a := ['x', 'y', 'z']) d4 (by decide)
      simpa using this
    have hadv9 : adv_off ('x' :: 'y' :: 'z' :: '/' :: d4 : List Char) = 4 := by
      have := adv_off_append (a := ['x', 'y', 'z']) (r := d4) (by decide) (hd4 ▸ print_nat_ne_nil v4)
      simpa using this
    have hdrop9 : (('x' : Char) :: 'y' :: 'z' :: '/' :: d4).drop 4 = d4 := rfl
    have hA13 : At p (s + 5 + (d3.length + 1) + 4) d4 := by
      have := at_adv hA9
      rwa [hadv9, hdrop9] at this
    have hseg13 : d4.take (sidx d4) = d4 := seg0_no_slash (hd4 ▸ print_nat_no_slash v4)
    have hadv13 : adv_off d4 = d4.length := adv_off_no_slash (hd4 ▸ print_nat_no_slash v4)
    have hA14 : At p (s + 5 + (d3.length + 1) + 4 + d4.length) ([] : List Char) := by
      have := at_adv hA13
      rwa [hadv13, List.drop_length] at this
    rw [tms_opt_hit hA5 (by rw [hseg5, hd3]; exact parse_print v3) _ _ _]
    rw [hadv5, hdrop5]
    rw [tms_lit_hit hA9 hseg9 [.optTyped parse_nat] _ _]
    rw [hadv9, hdrop9]
    rw [tms_opt_hit hA13 (by rw [hseg13, hd4]; exact parse_print v4) _ _ _]
    rw [hadv13, List.drop_length]
    exact tms_term_ret hA14 term_ok_nil 10 _

end QueryRouter

namespace QueryRouter

theorem handle_sub_entry {t : List Char} (ht : t ≠ [])
    {r : Except RouterError (Answer Nat)}
    (hsub : internal_handle test_sub_rpc ('/' :: 's' :: 'u' :: 'b' :: '/' :: t) 4 = .result r) :
    internal_handle test_rpc ('/' :: 's' :: 'u' :: 'b' :: '/' :: t) 0 = .result r := by
  set p : List Char := '/' :: 's' :: 'u' :: 'b' :: '/' :: t with hp
  have hp1 : p.take 1 = ['/'] := by rw [hp]; rfl
  have hA0 : At p 1 ('s' :: 'u' :: 'b' :: '/' :: t) := at_start _
  have hseg0 : (('s' : Char) :: 'u' :: 'b' :: '/' :: t).take
      (sidx ('s' :: 'u' :: 'b' :: '/' :: t)) = ['s', 'u', 'b'] := by
    have := seg0_append (a := ['s', 'u', 'b']) t (by decide)
    simpa using this
  have hadv0 : adv_off ('s' :: 'u' :: 'b' :: '/' :: t : List Char) = 4 := by
    have := adv_off_append (a := ['s', 'u', 'b']) (r := t) (by decide) ht
    simpa using this
  have hdrop0 : (('s' : Char) :: 'u' :: 'b' :: '/' :: t).drop 4 = t := rfl
  have h1 : try_match [.lit ['s', 'u', 'b']] (.sub test_sub_rpc) p 0 = .ret r := by
    rw [try_match_at hp1 hA0 (by simp)]
    simp only [Nat.zero_add]
    rw [tms_lit_hit hA0 hseg0 [] _ _]
    rw [hadv0, hdrop0]
    norm_num
    exact tms_sub_result (by omega) hsub _ _
  show internal_handle (.cons [.lit ['s', 'u', 'b']] (.sub test_sub_rpc)
    (.cons [.lit ['a']] (.leaf 1) (.cons [.lit ['b']] (.block b_block) .nil))) p 0 = .result r
  rw [ih_ret h1]

theorem y_round_trip (arg : List Char) (harg : '/' ∉ arg) :
    handle test_rpc (y_path arg) = .result (.ok (12, [.str arg])) := by
  have hpath : y_path arg = '/' :: 's' :: 'u' :: 'b' :: '/' :: ('y' :: '/' :: arg) := by
    simp [y_path, join_path, join_pieces, sub_router_root]
  rw [handle, hpath]
  apply handle_sub_entry (by simp)
  set p : List Char := '/' :: 's' :: 'u' :: 'b' :: '/' :: ('y' :: '/' :: arg) with hp
  have hp1 : p.take 1 = ['/'] := by rw [hp]; rfl
  have hA5 : At p 5 ('y' :: '/' :: arg) := by
    constructor
    · rfl
    · simp [hp]; omega
  have hseg5 : (('y' : Char) :: '/' :: arg).take (sidx ('y' :: '/' :: arg)) = ['y'] := by
    have := seg0_append (a := ['y']) arg (by decide)
    simpa using this
  have m1 : try_match [.lit ['x']] (.leaf 11 : Handle Nat) p 4 = .next := by
    rw [try_match_at hp1 hA5 (by simp)]
    exact tms_lit_miss hA5 (by rw [hseg5]; decide) _ _ _
  rcases eq_or_ne arg [] with harg0 | harg0
  · subst harg0
    have hadv5 : adv_off ('y' :: '/' :: ([] : List Char) : List Char) = 1 := by
      have := adv_off_append_nil (a := ['y']) (by decide)
      simpa using this
    have hdrop5 : (('y' : Char) :: '/' :: ([] : List Char)).drop 1 = ['/'] := rfl
    have hA6 : At p 6 (['/'] : List Char) := by
      have := at_adv hA5
      rwa [hadv5, hdrop5] at this
    have m2 : try_match [.lit ['y'], .untyped] (.leaf 12 : Handle Nat) p 4
        = .ret (.ok (12, [.str []])) := by
      rw [try_match_at hp1 hA5 (by simp)]
      rw [tms_lit_hit hA5 hseg5 [.untyped] _ _]
      rw [hadv5, hdrop5]
      norm_num
      rw [tms_untyped hA6 [] _ _]
      rw [show adv_off (['/'] : List Char) = 0 from rfl]
      rw [show (['/'] : List Char).drop 0 = ['/'] from rfl]
      norm_num
      have := tms_term_ret hA6 term_ok_slash 12 ([.str (['/'].take (sidx ['/']))] : List (Arg Nat))
      simpa using this
    show internal_handle (.cons [.lit ['x']] (.leaf 11)
      (.cons [.lit ['y'], .untyped] (.leaf 12)
        (.cons [.lit ['z'], .untyped] (.leaf 13) .nil))) p 4 = _
    rw [ih_next m1, ih_ret m2]
  · have hadv5 : adv_off ('y' :: '/' :: arg : List Char) = 2 := by
      have := adv_off_append (a := ['y']) (r := arg) (by decide) harg0
      simpa using this
    have hdrop5 : (('y' : Char) :: '/' :: arg).drop 2 = arg := rfl
    have hA7 : At p 7 arg := by
      have := at_adv hA5
      rwa [hadv5, hdrop5] at this
    have hsegA : arg.take (sidx arg) = arg := seg0_no_slash harg
    have hadvA : adv_off arg = arg.length := adv_off_no_slash harg
    have hA8 : At p (7 + arg.length) ([] : List Char) := by
      have := at_adv hA7
      rwa [hadvA, List.drop_length] at this
    have m2 : try_match [.lit ['y'], .untyped] (.leaf 12 : Handle Nat) p 4
        = .ret (.ok (12, [.str arg])) := by
      rw [try_match_at hp1 hA5 (by simp)]
      rw [tms_lit_hit hA5 hseg5 [.untyped] _ _]
      rw [hadv5, hdrop5]
      norm_num
      rw [tms_untyped hA7 [] _ _]
      rw [hadvA, List.drop_length, hsegA]
      have := tms_term_ret hA8 term_ok_nil 12 ([.str arg] : List (Arg Nat))
      simpa using this
    show internal_handle (.cons [.lit ['x']] (.leaf 11)
      (.cons [.lit ['y'], .untyped] (.leaf 12)
        (.cons [.lit ['z'], .untyped] (.leaf 13) .nil))) p 4 = _
    rw [ih_next m1, ih_ret m2]

theorem z_round_trip (arg : List Char) (harg : '/' ∉ arg) :
    handle test_rpc (z_path arg) = .result (.ok (13, [.str arg])) := by
  have hpath : z_path arg = '/' :: 's' :: 'u' :: 'b' :: '/' :: ('z' :: '/' :: arg) := by
    simp [z_path, join_path, join_pieces, sub_router_root]
  rw [handle, hpath]
  apply handle_sub_entry (by simp)
  set p : List Char := '/' :: 's' :: 'u' :: 'b' :: '/' :: ('z' :: '/' :: arg) with hp
  have hp1 : p.take 1 = ['/'] := by rw [hp]; rfl
  have hA5 : At p 5 ('z' :: '/' :: arg) := by
    constructor
    · rfl
    · simp [hp]; omega
  have hseg5 : (('z' : Char) :: '/' :: arg).take (sidx ('z' :: '/' :: arg)) = ['z'] := by
    have := seg0_append (a := ['z']) arg (by decide)
    simpa using this
  have m1 : try_match [.lit ['x']] (.leaf 11 : Handle Nat) p 4 = .next := by
    rw [try_match_at hp1 hA5 (by simp)]
    exact tms_lit_miss hA5 (by rw [hseg5]; decide) _ _ _
  have m2 : try_match [.lit ['y'], .untyped] (.leaf 12 : Handle Nat) p 4 = .next := by
    rw [try_match_at hp1 hA5 (by simp)]
    exact tms_lit_miss hA5 (by rw [hseg5]; decide) _ _ _
  rcases eq_or_ne arg [] with harg0 | harg0
  · subst harg0
    have hadv5 : adv_off ('z' :: '/' :: ([] : List Char) : List Char) = 1 := by
      have := adv_off_append_nil (a := ['z']) (by decide)
      simpa using this
    have hdrop5 : (('z' : Char) :: '/' :: ([] : List Char)).drop 1 = ['/'] := rfl
    have hA6 : At p 6 (['/'] : List Char) := by
      have := at_adv hA5
      rwa [hadv5, hdrop5] at this
    have m3 : try_match [.lit ['z'], .untyped] (.leaf 13 : Handle Nat) p 4
        = .ret (.ok (13, [.str []])) := by
      rw [try_match_at hp1 hA5 (by simp)]
      rw [tms_lit_hit hA5 hseg5 [.untyped] _ _]
      rw [hadv5, hdrop5]
      norm_num
      rw [tms_untyped hA6 [] _ _]
      rw [show adv_off (['/'] : List Char) = 0 from rfl]
      rw [show (['/'] : List Char).drop 0 = ['/'] from rfl]
      norm_num
      have := tms_term_ret hA6 term_ok_slash 13 ([.str (['/'].take (sidx ['/']))] : List (Arg Nat))
      simpa using this
    show internal_handle (.cons [.lit ['x']] (.leaf 11)
      (.cons [.lit ['y'], .untyped] (.leaf 12)
        (.cons [.lit ['z'], .untyped] (.leaf 13) .nil))) p 4 = _
    rw [ih_next m1, ih_next m2, ih_ret m3]
  · have hadv5 : adv_off ('z' :: '/' :: arg : List Char) = 2 := by
      have := adv_off_append (a := ['z']) (r := arg) (by decide) harg0
      simpa using this
    have hdrop5 : (('z' : Char) :: '/' :: arg).drop 2 = arg := rfl
    have hA7 : At p 7 arg := by
      have := at_adv hA5
      rwa [hadv5, hdrop5] at this
    have hsegA : arg.take (sidx arg) = arg := seg0_no_slash harg
    have hadvA : adv_off arg = arg.length := adv_off_no_slash harg
    have hA8 : At p (7 + arg.length) ([] : List Char) := by
      have := at_adv hA7
      rwa [hadvA, List.drop_length] at this
    have m3 : try_match [.lit ['z'], .untyped] (.leaf 13 : Handle Nat) p 4
        = .ret (.ok (13, [.str arg])) := by
      rw [try_match_at hp1 hA5 (by simp)]
      rw [tms_lit_hit hA5 hseg5 [.untyped] _ _]
      rw [hadv5, hdrop5]
      norm_num
      rw [tms_untyped hA7 [] _ _]
      rw [hadvA, List.drop_length, hsegA]
      have := tms_term_ret hA8 term_ok_nil 13 ([.str arg] : List (Arg Nat))
      simpa using this
    show internal_handle (.cons [.lit ['x']] (.leaf 11)
      (.cons [.lit ['y'], .untyped] (.leaf 12)
        (.cons [.lit ['z'], .untyped] (.leaf 13) .nil))) p 4 = _
    rw [ih_next m1, ih_next m2, ih_ret m3]

theorem a_round_trip : handle test_rpc a_path = .result (.ok (1, [])) := by
  simp [a_path, join_path, join_pieces, handle, internal_handle, try_match, try_match_segments,
    try_sub_patterns, find_next_slash_index, strFind, slice, advance_start, test_rpc,
    test_sub_rpc, b_block, b0_block, b2_block, b3_block]

theorem b0i_round_trip : handle test_rpc b0i_path = .result (.ok (2, [])) := by
  simp [b0i_path, join_path, join_pieces, handle, internal_handle, try_match, try_match_segments,
    try_sub_patterns, find_next_slash_index, strFind, slice, advance_start, test_rpc,
    test_sub_rpc, b_block, b0_block, b2_block, b3_block]

theorem b0ii_round_trip : handle test_rpc b0ii_path = .result (.ok (3, [])) := by
  simp [b0ii_path, join_path, join_pieces, handle, internal_handle, try_match, try_match_segments,
    try_sub_patterns, find_next_slash_index, strFind, slice, advance_start, test_rpc,
    test_sub_rpc, b_block, b0_block, b2_block, b3_block]

theorem b1_round_trip : handle test_rpc b1_path = .result (.ok (4, [])) := by
  simp [b1_path, join_path, join_pieces, handle, internal_handle, try_match, try_match_segments,
    try_sub_patterns, find_next_slash_index, strFind, slice, advance_start, test_rpc,
    test_sub_rpc, b_block, b0_block, b2_block, b3_block]

theorem x_round_trip : handle test_rpc x_path = .result (.ok (11, [])) := by
  simp [x_path, join_path, join_pieces, sub_router_root, handle, internal_handle, try_match,
    try_match_segments, try_sub_patterns, find_next_slash_index, strFind, slice, advance_start,
    test_rpc, test_sub_rpc, b_block, b0_block, b2_block, b3_block]

end QueryRouter

namespace QueryRouter

/-! ### Claim C1 -/

/-- A router in which an early loose route shadows the built path of a
later-declared handler: `( [arg] ) = handler 1, ( "a" ) = handler 2`. -/
def c1_shadow_router : Routes Nat :=
  .cons [.untyped] (.leaf 1) (.cons [.lit ['a']] (.leaf 2) .nil)

/-- C1 (counterexample): the round-trip property fails for a router in
general.  The path `/a` built for handler 2 (pattern `( "a" )`) is matched by
the earlier-declared untyped-argument route, so matching resolves to handler 1
with argument `"a"` instead of handler 2 with no arguments. -/
theorem c1_round_trip_counterexample :
    internal_handle c1_shadow_router (join_path [some [], some ['a']]) 0
        = .result (.ok (1, [.str ['a']]))
    ∧ internal_handle c1_shadow_router (join_path [some [], some ['a']]) 0
        ≠ .result (.ok (2, [])) := by
  have h : internal_handle c1_shadow_router (join_path [some [], some ['a']]) 0
      = .result (.ok (1, [.str ['a']])) := by
    simp [c1_shadow_router, join_path, join_pieces, internal_handle, try_match,
      try_match_segments, find_next_slash_index, strFind, slice, advance_start]
  exact ⟨h, by rw [h]; simp⟩

/-- C1 (amended): for the repository's own routers — `TEST_RPC` with its
sub-router `TEST_SUB_RPC` — every registered handler round-trips: matching the
path string produced by the handler's generated path-construction function
resolves to the same handler with the same argument values, for every valid
argument tuple (numeric arguments are printed/parsed as decimal numerals;
untyped string arguments must contain no `/`).  The unrestricted claim, over
every router, fails: an earlier-declared route can shadow the built path of a
later handler (see the counterexample). -/
theorem c1_round_trip_of_built_paths :
    handle test_rpc a_path = .result (.ok (1, []))
    ∧ handle test_rpc b0i_path = .result (.ok (2, []))
    ∧ handle test_rpc b0ii_path = .result (.ok (3, []))
    ∧ handle test_rpc b1_path = .result (.ok (4, []))
    ∧ (∀ balance, handle test_rpc (b2i_path balance) = .result (.ok (5, [.val balance])))
    ∧ (∀ a1 a2 a3, handle test_rpc (b3i_path a1 a2 a3)
        = .result (.ok (6, [.val a1, .val a2, .val a3])))
    ∧ (∀ a1 a2 a3, handle test_rpc (b3_path a1 a2 a3)
        = .result (.ok (7, [.val a1, .val a2, .val a3])))
    ∧ (∀ a1 a2 a3, handle test_rpc (b3ii_path a1 a2 a3)
        = .result (.ok (8, [.val a1, .val a2, .val a3])))
    ∧ (∀ a1 a2 a3, handle test_rpc (b3iii_path a1 a2 a3)
        = .result (.ok (9, [.val a1, .val a2, .opt a3])))
    ∧ (∀ a1 a2 a3 a4, handle test_rpc (b3iiii_path a1 a2 a3 a4)
        = .result (.ok (10, [.val a1, .val a2, .opt a3, .opt a4])))
    ∧ handle test_rpc x_path = .result (.ok (11, []))
    ∧ (∀ arg, '/' ∉ arg → handle test_rpc (y_path arg) = .result (.ok (12, [.str arg])))
    ∧ (∀ arg, '/' ∉ arg → handle test_rpc (z_path arg) = .result (.ok (13, [.str arg]))) :=
  ⟨a_round_trip, b0i_round_trip, b0ii_round_trip, b1_round_trip, b2i_round_trip,
    b3i_round_trip, b3_round_trip, b3ii_round_trip, b3iii_round_trip, b3iiii_round_trip,
    x_round_trip, y_round_trip, z_round_trip⟩

/-- Witness for C1 at the spec's concrete scenarios:
`/b/3/345/123000/1000999` resolves to `b3` with those three values, and
`/sub/y/test123` resolves to `y` with `"test123"`. -/
theorem c1_round_trip_witness :
    handle test_rpc (b3_path 345 123000 1000999)
        = .result (.ok (7, [.val 345, .val 123000, .val 1000999]))
    ∧ handle test_rpc (y_path ['t', 'e', 's', 't', '1', '2', '3'])
        = .result (.ok (12, [.str ['t', 'e', 's', 't', '1', '2', '3']])) :=
  ⟨c1_round_trip_of_built_paths.2.2.2.2.2.2.1 345 123000 1000999,
    c1_round_trip_of_built_paths.2.2.2.2.2.2.2.2.2.2.2.1
      ['t', 'e', 's', 't', '1', '2', '3'] (by decide)⟩

end QueryRouter

namespace QueryRouter

/-! ### Claim C2 -/

/-- Concatenation of route tables. -/
def app : Routes α → Routes α → Routes α
  | .nil, r2 => r2
  | .cons pat h tl, r2 => .cons pat h (app tl r2)

/-- Every route in the table breaks (`Res.next`) on the given request. -/
def all_break : Routes α → List Char → Nat → Prop
  | .nil, _, _ => True
  | .cons pat h tl, p, s0 => try_match pat h p s0 = .next ∧ all_break tl p s0

theorem all_break_first_match {α : Type} : ∀ (pre : Routes α) (pat : List (Segment α))
    (h : Handle α) (post : Routes α) (p : List Char) (s0 : Nat)
    (r : Except RouterError (Answer α)),
    all_break pre p s0 → try_match pat h p s0 = .ret r →
    internal_handle (app pre (.cons pat h post)) p s0 = .result r
  | .nil, pat, h, post, p, s0, r, _, hhit => by
    rw [show app .nil (.cons pat h post) = .cons pat h post from rfl]
    exact ih_ret hhit post
  | .cons pat' h' tl, pat, h, post, p, s0, r, hpre, hhit => by
    obtain ⟨h1, h2⟩ := hpre
    rw [show app (.cons pat' h' tl) (.cons pat h post)
      = .cons pat' h' (app tl (.cons pat h post)) from rfl]
    rw [ih_next h1]
    exact all_break_first_match tl pat h post p s0 r h2 hhit

/-- The second route of the C2 counterexample router on its own. -/
def c2_cex_exact_route : Routes Nat :=
  .cons [.lit ['s', 'u', 'b'], .lit ['x']] (.leaf 2) .nil

/-- The C2 counterexample router: a route delegating to a sub-router that
cannot match `/sub/x`, declared before a route whose pattern fully matches
`/sub/x`. -/
def c2_cex_router : Routes Nat :=
  .cons [.lit ['s', 'u', 'b']] (.sub (.cons [.lit ['y']] (.leaf 1) .nil)) c2_cex_exact_route

/-- C2 (counterexample): on `/sub/x` the second route's pattern fully matches
(on its own it resolves to handler 2), yet the router returns `WrongPath`
because the earlier-declared route delegates into a sub-router whose failure
is returned immediately — the fully matching pattern never determines the
handler. -/
theorem c2_counterexample :
    internal_handle c2_cex_router ['/', 's', 'u', 'b', '/', 'x'] 0
        = .result (.error (.wrongPath ['/', 's', 'u', 'b', '/', 'x']))
    ∧ internal_handle c2_cex_exact_route ['/', 's', 'u', 'b', '/', 'x'] 0
        = .result (.ok (2, [])) := by
  constructor <;>
    simp [c2_cex_router, c2_cex_exact_route, internal_handle, try_match, try_match_segments,
      find_next_slash_index, strFind, slice, advance_start]

/-- C2 (amended): candidate routes are tried strictly in declaration order and
no specificity or longest-match heuristic exists: whenever every
earlier-declared route breaks and a route's own match attempt returns a
result, that result is the router's result, whatever routes are declared
after it.  (The original claim fails only when an earlier route delegates
into a sub-router: the sub-router's outcome — success or error — is returned
immediately, so a later route that could fully match is never tried; see the
counterexample.) -/
theorem c2_declaration_order {α : Type} (pre : Routes α) (pat : List (Segment α))
    (h : Handle α) (post : Routes α) (p : List Char) (s0 : Nat)
    (r : Except RouterError (Answer α))
    (hpre : all_break pre p s0) (hhit : try_match pat h p s0 = .ret r) :
    internal_handle (app pre (.cons pat h post)) p s0 = .result r :=
  all_break_first_match pre pat h post p s0 r hpre hhit

/-- Witness for C2: with a first route that breaks on `/a` and two
later routes both matching `/a`, the earlier of the two wins regardless of
the trailing route. -/
theorem c2_declaration_order_witness :
    internal_handle (app (.cons [.lit ['q']] (.leaf 0) .nil)
        (.cons [.lit ['a']] (.leaf 1) (.cons [.lit ['a']] (.leaf 2) .nil)))
      ['/', 'a'] 0 = .result (.ok (1, ([] : List (Arg Nat)))) := by
  apply c2_declaration_order
  · constructor
    · simp [try_match, try_match_segments, find_next_slash_index, strFind, slice, advance_start]
    · trivial
  · simp [try_match, try_match_segments, find_next_slash_index, strFind, slice, advance_start]

end QueryRouter

namespace QueryRouter

/-! ### Claims C3 and C4 -/

/-- C3: the three degenerate path forms (empty, missing the leading `/`, and
the bare `/`) make every route break, so `TEST_RPC` returns
`WrongPath(original path)` — but the general claim fails: on `/b/9`, where no
route fully matches either, the router does not return `WrongPath` at all; it
diverges, because the matched block prefix `"b"` falls through all
sub-patterns and the candidate loop repeats with unchanged state. -/
theorem c3_wrong_path_on_unmatched :
    internal_handle test_rpc [] 0 = .result (.error (.wrongPath []))
    ∧ internal_handle test_rpc ['b'] 0 = .result (.error (.wrongPath ['b']))
    ∧ internal_handle test_rpc ['/'] 0 = .result (.error (.wrongPath ['/']))
    ∧ internal_handle test_rpc ['/', 'b', '/', '9'] 0 = .diverge := by
  refine ⟨?_, ?_, ?_, ?_⟩ <;>
    simp [test_rpc, test_sub_rpc, b_block, b0_block, b2_block, b3_block, internal_handle,
      try_match, try_match_segments, try_sub_patterns, find_next_slash_index, strFind,
      slice, advance_start]

/-- The single-route router `( "a" ) = handler`. -/
def c4_router : Routes Nat := .cons [.lit ['a']] (.leaf 0) .nil

/-- C4: the first half of the claim — acceptance at exact end or with one
trailing `/` — holds, but the consequence fails: because the cursor is
advanced past the next `/` before the end-of-path check, a path with a whole
extra segment beyond the matched segments (`/a/xy`, `/a//`, `/a/x/` — two or
more extra characters) still matches the route `( "a" )`; only from two extra
segments on (`/a///`) does matching fail. -/
theorem c4_trailing_characters :
    internal_handle c4_router ['/', 'a'] 0 = .result (.ok (0, []))
    ∧ internal_handle c4_router ['/', 'a', '/'] 0 = .result (.ok (0, []))
    ∧ internal_handle c4_router ['/', 'a', '/', 'x', 'y'] 0 = .result (.ok (0, []))
    ∧ internal_handle c4_router ['/', 'a', '/', '/'] 0 = .result (.ok (0, []))
    ∧ internal_handle c4_router ['/', 'a', '/', 'x', '/'] 0 = .result (.ok (0, []))
    ∧ internal_handle c4_router ['/', 'a', '/', '/', '/'] 0
        = .result (.error (.wrongPath ['/', 'a', '/', '/', '/'])) := by
  refine ⟨?_, ?_, ?_, ?_, ?_, ?_⟩ <;>
    simp [c4_router, internal_handle, try_match, try_match_segments, try_sub_patterns,
      find_next_slash_index, strFind, slice, advance_start]

end QueryRouter

namespace QueryRouter

/-! ### Claims C5, C6, C7 -/

/-- C5: an optional typed segment never aborts the route: on parse failure it
binds `None` and leaves both cursors untouched, so the same path segment is
re-examined by the next pattern element; on parse success it binds
`Some(value)` and advances the cursor to the next segment boundary. -/
theorem c5_optional_fallback {α : Type} (pr : List Char → Option α) (segs : List (Segment α))
    (h : Handle α) (args : List (Arg α)) (p : List Char) (s e : Nat) :
    (pr (slice p s e) = none →
      try_match_segments (.optTyped pr :: segs) h args p s e
        = try_match_segments segs h (args ++ [.opt none]) p s e)
    ∧ (∀ v, pr (slice p s e) = some v →
      try_match_segments (.optTyped pr :: segs) h args p s e
        = try_match_segments segs h (args ++ [.opt (some v)]) p (advance_start p e)
            (find_next_slash_index p (advance_start p e))) := by
  constructor
  · intro hn
    simp only [try_match_segments, hn]
  · intro v hv
    simp only [try_match_segments, hv]

/-- Witness for C5: `q` does not parse as a number, so the optional argument
binds `None` without consuming the segment; `7` parses, binds `Some 7` and
advances. -/
theorem c5_optional_fallback_witness :
    try_match_segments (.optTyped parse_nat :: [.lit ['q']]) (.leaf 0 : Handle Nat) []
        ['/', 'q'] 1 2
      = try_match_segments [.lit ['q']] (.leaf 0) [.opt none] ['/', 'q'] 1 2
    ∧ try_match_segments [.optTyped parse_nat] (.leaf 0 : Handle Nat) [] ['/', '7'] 1 2
      = try_match_segments [] (.leaf 0) [.opt (some 7)] ['/', '7'] (advance_start ['/', '7'] 2)
          (find_next_slash_index ['/', '7'] (advance_start ['/', '7'] 2)) :=
  ⟨(c5_optional_fallback parse_nat [.lit ['q']] (.leaf 0) [] ['/', 'q'] 1 2).1 (by decide),
   (c5_optional_fallback parse_nat [] (.leaf 0) [] ['/', '7'] 1 2).2 7 (by decide)⟩

/-- C6: a required typed argument that is the final pattern element bound to a
leaf handler is a catch-all: whatever `end` currently is, the parsed text is
the whole remainder `path[start..path.len()]` (slashes included); success
immediately invokes the handler (the end-of-path check passes since `end` was
set to the path length), and failure breaks only this candidate route, so the
next candidate is tried. -/
theorem c6_catch_all {α : Type} (pr : List Char → Option α) (id : Nat) (args : List (Arg α))
    (p : List Char) (s e : Nat) :
    (∀ v, pr (slice p s p.length) = some v →
      try_match_segments [.typed pr] (.leaf id) args p s e = .ret (.ok (id, args ++ [.val v])))
    ∧ (pr (slice p s p.length) = none →
      try_match_segments [.typed pr] (.leaf id) args p s e = .next)
    ∧ slice p s p.length = p.drop s
    ∧ (∀ (pat : List (Segment α)) (h : Handle α) (tl : Routes α) (s0 : Nat),
        try_match pat h p s0 = .next →
        internal_handle (.cons pat h tl) p s0 = internal_handle tl p s0) := by
  refine ⟨?_, ?_, ?_, ?_⟩
  · intro v hv
    simp only [try_match_segments, hv]
    simp
  · intro hn
    simp only [try_match_segments, hn]
  · unfold slice
    rw [List.take_length]
  · intro pat h tl s0 hnext
    exact ih_next hnext tl

/-- Witness for C6: with `end` frozen at `4`, the parsed text is the whole
remainder: `12` parses and the handler is invoked; `a/b` (slash included)
fails to parse and the candidate breaks. -/
theorem c6_catch_all_witness :
    try_match_segments [.typed parse_nat] (.leaf 9 : Handle Nat) [] ['/', 'k', '/', '1', '2'] 3 4
      = .ret (.ok (9, [.val 12]))
    ∧ try_match_segments [.typed parse_nat] (.leaf 9 : Handle Nat) []
        ['/', 'k', '/', 'a', '/', 'b'] 3 4 = .next :=
  ⟨(c6_catch_all parse_nat 9 [] ['/', 'k', '/', '1', '2'] 3 4).1 12 (by decide),
   (c6_catch_all parse_nat 9 [] ['/', 'k', '/', 'a', '/', 'b'] 3 4).2.1 (by decide)⟩

/-- How a sub-router's `internal_handle` outcome becomes the delegating
route's outcome (the `return` in `handle_match!`'s sub-router rule). -/
def sub_outcome : MOut α → Res α
  | .result r => .ret r
  | .diverge => .diverge
  | .underflow => .underflow

/-- C7: a route that delegates to a sub-router rewinds `start` by exactly one
byte and returns the sub-router's `internal_handle` outcome — success or
propagated error — with no further segments processed locally; concretely,
`/sub/y/test123` on `TEST_RPC` resolves to the same handler and argument
(`y` with `"test123"`) as `/y/test123` does on `TEST_SUB_RPC` itself. -/
theorem c7_sub_router_delegation :
    (∀ (α : Type) (routes : Routes α) (args : List (Arg α)) (p : List Char) (s e : Nat),
      1 ≤ s →
      try_match_segments [] (.sub routes) args p s e
        = sub_outcome (internal_handle routes p (s - 1)))
    ∧ handle test_rpc ['/', 's', 'u', 'b', '/', 'y', '/', 't', 'e', 's', 't', '1', '2', '3']
        = .result (.ok (12, [.str ['t', 'e', 's', 't', '1', '2', '3']]))
    ∧ handle test_sub_rpc ['/', 'y', '/', 't', 'e', 's', 't', '1', '2', '3']
        = .result (.ok (12, [.str ['t', 'e', 's', 't', '1', '2', '3']])) := by
  refine ⟨?_, ?_, ?_⟩
  · intro α routes args p s e hs
    simp only [try_match_segments, if_neg (by omega : ¬ s = 0)]
    cases hres : internal_handle routes p (s - 1) <;> simp [sub_outcome]
  · have h := y_round_trip ['t', 'e', 's', 't', '1', '2', '3'] (by decide)
    have hpath : y_path ['t', 'e', 's', 't', '1', '2', '3']
        = ['/', 's', 'u', 'b', '/', 'y', '/', 't', 'e', 's', 't', '1', '2', '3'] := by
      simp [y_path, join_path, join_pieces, sub_router_root]
    rwa [hpath] at h
  · simp [handle, test_sub_rpc, internal_handle, try_match, try_match_segments,
      find_next_slash_index, strFind, slice, advance_start]

/-- Witness for C7: the generic rewind equation at `start = 1` on the path
`/x` with the sub-router `TEST_SUB_RPC`. -/
theorem c7_sub_router_delegation_witness :
    try_match_segments [] (.sub test_sub_rpc) [] ['/', 'x'] 1 2
      = sub_outcome (internal_handle test_sub_rpc ['/', 'x'] 0) :=
  c7_sub_router_delegation.1 Nat test_sub_rpc [] ['/', 'x'] 1 2 (by decide)

end QueryRouter

namespace QueryRouter

/-! ### Claims C8 and C9 -/

theorem strFind_none_spec {X : List Char} {c : Char} (h : strFind X c = none) :
    ∀ j : Nat, X[j]? ≠ some c := by
  induction X with
  | nil => intro j; simp
  | cons d ds ih =>
    intro j
    by_cases hd : d = c
    · simp [strFind, hd] at h
    · simp only [strFind, if_neg hd, Option.map_eq_none'] at h
      match j with
      | 0 => simpa using hd
      | j + 1 =>
        simp only [List.getElem?_cons_succ]
        exact ih h j

/-- C8: for `start ≤ path.len()`, `find_next_slash_index` returns the least
index `i ≥ start` holding a `/`, or the path length when there is none: the
result lies in `[start, path.len()]`, points at a `/` whenever it is inside
the path, and no position from `start` up to it holds a `/`. -/
theorem c8_find_next_slash_index_spec (p : List Char) (start : Nat) (hs : start ≤ p.length) :
    start ≤ find_next_slash_index p start
    ∧ find_next_slash_index p start ≤ p.length
    ∧ (find_next_slash_index p start < p.length →
        p[find_next_slash_index p start]? = some '/')
    ∧ (∀ i, start ≤ i → i < find_next_slash_index p start → p[i]? ≠ some '/') := by
  have hld := List.length_drop start p
  cases hf : strFind (p.drop start) '/' with
  | none =>
    have hF : find_next_slash_index p start = p.length := by
      unfold find_next_slash_index
      rw [hf]
    have hnone := strFind_none_spec hf
    rw [hF]
    refine ⟨hs, le_rfl, by omega, ?_⟩
    intro i hi1 hi2 hc
    have hdg : (p.drop start)[i - start]? = some '/' := by
      rw [List.getElem?_drop, show start + (i - start) = i by omega, hc]
    exact hnone (i - start) hdg
  | some i =>
    have hF : find_next_slash_index p start = start + i := by
      unfold find_next_slash_index
      rw [hf]
    obtain ⟨h1, h2, h3⟩ := strFind_some_spec hf
    rw [hF]
    refine ⟨by omega, by omega, ?_, ?_⟩
    · intro _
      rw [show start + i = start + i from rfl, ← List.getElem?_drop, h2]
    · intro j hj1 hj2 hc
      have hdg : (p.drop start)[j - start]? = some '/' := by
        rw [List.getElem?_drop, show start + (j - start) = j by omega, hc]
      exact h3 (j - start) (by omega) hdg

/-- Witness for C8 at `path = "/ab/"`, `start = 1`: the next slash is at
index `3`. -/
theorem c8_find_next_slash_index_witness :
    1 ≤ find_next_slash_index ['/', 'a', 'b', '/'] 1
    ∧ find_next_slash_index ['/', 'a', 'b', '/'] 1 ≤ (['/', 'a', 'b', '/'] : List Char).length :=
  ⟨(c8_find_next_slash_index_spec ['/', 'a', 'b', '/'] 1 (by decide)).1,
   (c8_find_next_slash_index_spec ['/', 'a', 'b', '/'] 1 (by decide)).2.1⟩

/-- C9: an untyped argument segment never rejects: it binds the raw slice
`path[start..end]` — possibly empty — as a string argument, with no parsing,
and matching always proceeds to the next pattern element with the cursor
advanced. -/
theorem c9_untyped_argument {α : Type} (segs : List (Segment α)) (h : Handle α)
    (args : List (Arg α)) (p : List Char) (s e : Nat) :
    try_match_segments (.untyped :: segs) h args p s e
      = try_match_segments segs h (args ++ [.str (slice p s e)]) p (advance_start p e)
          (find_next_slash_index p (advance_start p e)) := by
  simp only [try_match_segments]

end QueryRouter

namespace QueryRouter

/-! ### Claim C10 -/

theorem find_next_slash_index_pos {p : List Char} (hp : p ≠ []) {s : Nat} (hs : 1 ≤ s) :
    1 ≤ find_next_slash_index p s := by
  have hl := List.length_pos.mpr hp
  cases hf : strFind (p.drop s) '/' with
  | none =>
    have hF : find_next_slash_index p s = p.length := by
      unfold find_next_slash_index
      rw [hf]
    omega
  | some i =>
    have hF : find_next_slash_index p s = s + i := by
      unfold find_next_slash_index
      rw [hf]
    omega

theorem advance_start_pos (p : List Char) {e : Nat} (he : 1 ≤ e) :
    1 ≤ advance_start p e := by
  unfold advance_start
  split <;> omega

theorem segment_sizeOf_pos (sg : Segment α) : 0 < sizeOf sg := by
  cases sg <;> simp <;> omega

theorem handle_sizeOf_pos (h : Handle α) : 0 < sizeOf h := by
  cases h <;> simp

/-- The combined invariant behind C10: no run of the matcher ever reaches the
sub-router rewind with `start = 0`, because segment matching starts at offset
`start₀ + 1 ≥ 1` and the cursor only moves right. -/
theorem no_underflow_aux : ∀ n : Nat,
    (∀ (routes : Routes α) (p : List Char) (s0 : Nat), sizeOf routes ≤ n →
      internal_handle routes p s0 ≠ .underflow)
    ∧ (∀ (pat : List (Segment α)) (h : Handle α) (p : List Char) (s0 : Nat),
        sizeOf pat + sizeOf h + 1 ≤ n → try_match pat h p s0 ≠ .underflow)
    ∧ (∀ (segs : List (Segment α)) (h : Handle α) (args : List (Arg α)) (p : List Char)
        (s e : Nat), sizeOf segs + sizeOf h ≤ n → p ≠ [] → 1 ≤ s → 1 ≤ e →
        try_match_segments segs h args p s e ≠ .underflow)
    ∧ (∀ (subs : Routes α) (args : List (Arg α)) (p : List Char) (s e : Nat),
        sizeOf subs + 1 ≤ n → p ≠ [] → 1 ≤ s → 1 ≤ e →
        try_sub_patterns subs args p s e ≠ .underflow) := by
  intro n
  induction n using Nat.strong_induction_on with
  | _ n ih =>
    refine ⟨?_, ?_, ?_, ?_⟩
    · -- internal_handle
      intro routes p s0 hn
      cases routes with
      | nil => simp [internal_handle]
      | cons pat h tl =>
        have hpos := routes_sizeOf_pos tl
        have hsz : sizeOf (Routes.cons pat h tl) = 1 + sizeOf pat + sizeOf h + sizeOf tl := by
          simp
        simp only [internal_handle]
        cases htm : try_match pat h p s0 with
        | next =>
          exact (ih (sizeOf tl) (by omega)).1 tl p s0 le_rfl
        | ret r => simp
        | diverge => simp
        | underflow =>
          exact absurd htm ((ih (sizeOf pat + sizeOf h + 1) (by omega)).2.1 pat h p s0 le_rfl)
    · -- try_match
      intro pat h p s0 hn
      unfold try_match
      by_cases hc1 : p = [] ∨ p.take 1 ≠ ['/']
      · rw [if_pos hc1]
        simp
      · rw [if_neg hc1]
        by_cases hc2 : p.length ≤ s0 + 1
        · rw [if_pos hc2]
          simp
        · rw [if_neg hc2]
          push_neg at hc1
          exact (ih (sizeOf pat + sizeOf h) (by omega)).2.2.1 pat h [] p (s0 + 1)
            (find_next_slash_index p (s0 + 1)) le_rfl hc1.1 (by omega)
            (find_next_slash_index_pos hc1.1 (by omega))
    · -- try_match_segments
      intro segs h args p s e hn hp hs he
      have hlp := List.length_pos.mpr hp
      cases segs with
      | nil =>
        cases h with
        | block subs =>
          have hsz : sizeOf (Handle.block subs) = 1 + sizeOf subs := by simp
          simp only [try_match_segments]
          exact (ih (sizeOf subs + 1) (by simp at hn; omega)).2.2.2 subs args p s e le_rfl hp hs he
        | sub routes =>
          have hsz : sizeOf (Handle.sub routes) = 1 + sizeOf routes := by simp
          simp only [try_match_segments, if_neg (by omega : ¬ s = 0)]
          cases hres : internal_handle routes p (s - 1) with
          | result r => simp
          | diverge => simp
          | underflow =>
            exact absurd hres ((ih (sizeOf routes) (by simp at hn; omega)).1 routes p (s - 1) le_rfl)
        | leaf id =>
          simp only [try_match_segments]
          split <;> simp
      | cons sg rest =>
        have hsgpos := segment_sizeOf_pos sg
        have hhpos := handle_sizeOf_pos h
        cases sg with
        | untyped =>
          simp only [try_match_segments]
          exact (ih (sizeOf rest + sizeOf h) (by simp at hn ⊢; omega)).2.2.1 rest h _ p
            (advance_start p e) (find_next_slash_index p (advance_start p e)) le_rfl hp
            (advance_start_pos p he) (find_next_slash_index_pos hp (advance_start_pos p he))
        | optTyped pr =>
          simp only [try_match_segments]
          cases hpr : pr (slice p s e) with
          | some v =>
            exact (ih (sizeOf rest + sizeOf h) (by simp at hn ⊢; omega)).2.2.1 rest h _ p
              (advance_start p e) (find_next_slash_index p (advance_start p e)) le_rfl hp
              (advance_start_pos p he) (find_next_slash_index_pos hp (advance_start_pos p he))
          | none =>
            exact (ih (sizeOf rest + sizeOf h) (by simp at hn ⊢; omega)).2.2.1 rest h _ p
              s e le_rfl hp hs he
        | lit l =>
          simp only [try_match_segments]
          by_cases hsl : slice p s e = l
          · rw [if_pos hsl]
            exact (ih (sizeOf rest + sizeOf h) (by simp at hn ⊢; omega)).2.2.1 rest h _ p
              (advance_start p e) (find_next_slash_index p (advance_start p e)) le_rfl hp
              (advance_start_pos p he) (find_next_slash_index_pos hp (advance_start_pos p he))
          · rw [if_neg hsl]
            simp
        | typed pr =>
          cases rest with
          | nil =>
            cases h with
            | leaf id =>
              simp only [try_match_segments]
              cases hpr : pr (slice p s p.length) with
              | some v => simp
              | none => simp
            | block subs =>
              simp only [try_match_segments]
              cases hpr : pr (slice p s e) with
              | some v =>
                show try_sub_patterns subs (args ++ [Arg.val v]) p (advance_start p e)
                  (find_next_slash_index p (advance_start p e)) ≠ Res.underflow
                exact (ih (sizeOf subs + 1) (by simp at hn ⊢; omega)).2.2.2 subs _ p
                  (advance_start p e) (find_next_slash_index p (advance_start p e)) le_rfl hp
                  (advance_start_pos p he) (find_next_slash_index_pos hp (advance_start_pos p he))
              | none => simp
            | sub routes =>
              simp only [try_match_segments]
              cases hpr : pr (slice p s e) with
              | some v =>
                show (if advance_start p e = 0 then Res.underflow
                  else match internal_handle routes p (advance_start p e - 1) with
                    | MOut.result r => Res.ret r
                    | MOut.diverge => Res.diverge
                    | MOut.underflow => Res.underflow) ≠ Res.underflow
                have hadv := advance_start_pos p he
                rw [if_neg (by omega : ¬ advance_start p e = 0)]
                cases hres : internal_handle routes p (advance_start p e - 1) with
                | result r => simp
                | diverge => simp
                | underflow =>
                  exact absurd hres ((ih (sizeOf routes) (by simp at hn ⊢; omega)).1 routes p
                    (advance_start p e - 1) le_rfl)
              | none => simp
          | cons s1 r1 =>
            simp only [try_match_segments]
            cases hpr : pr (slice p s e) with
            | some v =>
              exact (ih (sizeOf (s1 :: r1) + sizeOf h) (by simp at hn ⊢; omega)).2.2.1 (s1 :: r1)
                h _ p (advance_start p e) (find_next_slash_index p (advance_start p e)) le_rfl hp
                (advance_start_pos p he) (find_next_slash_index_pos hp (advance_start_pos p he))
            | none => simp
    · -- try_sub_patterns
      intro subs args p s e hn hp hs he
      cases subs with
      | nil => simp [try_sub_patterns]
      | cons pat h tl =>
        have hsz : sizeOf (Routes.cons pat h tl) = 1 + sizeOf pat + sizeOf h + sizeOf tl := by
          simp
        simp only [try_sub_patterns]
        cases htm : try_match_segments pat h args p s e with
        | next =>
          exact (ih (sizeOf tl + 1) (by omega)).2.2.2 tl args p s e le_rfl hp hs he
        | ret r => simp
        | diverge => simp
        | underflow =>
          exact absurd htm ((ih (sizeOf pat + sizeOf h) (by omega)).2.2.1 pat h args p s e
            le_rfl hp hs he)

/-- C10: the one-byte rewind before delegating to a sub-router never
underflows: for every router, path and starting offset, `internal_handle`
never reaches `start -= 1` with `start = 0`, because matching only proceeds
past the verified leading `/` (to offset `start₀ + 1 ≥ 1`) and the cursor
never moves left afterwards. -/
theorem c10_no_underflow {α : Type} (routes : Routes α) (p : List Char) (s0 : Nat) :
    internal_handle routes p s0 ≠ .underflow :=
  (no_underflow_aux (sizeOf routes)).1 routes p s0 le_rfl

end QueryRouter
